import Mathlib

/-!
Shallow embedding of the restaurant-recommender search / ranking engine
(`backend/src/services/candidate_search.py`, `ranking.py`, `rerank.py`,
`bbox_builder.py`, data model from `backend/src/models.py`).

Modelling conventions.

* Python floats are modelled as exact rationals (`ℚ`).  `round(x, n)` and the
  `%.nf` / `{:.nf}` string formats are modelled with Mathlib's `round`
  (round-half-up, where CPython rounds half to even; no claim below depends on
  a half-way tie).
* Transcendental functions — `math.cos` inside `expand_bbox_from_center` and
  the haversine distance `haversine_km` — are taken as explicit functional
  parameters (`cosd`, `hav`); everything downstream of them is exact.
* Provider calls that may raise `GeoapifyError` are modelled as
  `Except Unit`-valued capability functions; `try/except` blocks become
  `match`es on the `Except` value.
* The dynamic attributes `place._violations` and `place._open_status` that
  the Python code attaches to venue objects with `setattr` are modelled as
  explicit fields `violations` / `open_status` of `Place`, threaded
  functionally through each pass (initialised to `[]` / `none`, exactly as
  `getattr(place, "_violations", [])` / `getattr(place, "_open_status", None)`
  default them).
* Python regular expressions (`_segment_days`, `_segment_time_range`) are
  modelled by direct left-to-right scanners with the same leftmost-match,
  greedy-first-alternative semantics on the character list.
* Python truthiness tests (`if not start_min`, `spec.lang or ...`) are spelled
  out: a string is truthy iff nonempty, an int iff nonzero, a list iff
  nonempty, an `Optional` iff `some` of a truthy/any value as the source uses
  it.
-/

/-! ## Data model (`models.py`) -/

/-- `models.GeocodeResult`: lon/lat plus optional bbox. -/
structure GeocodeResult where
  lon : ℚ
  lat : ℚ
  bbox : Option (ℚ × ℚ × ℚ × ℚ) := none
deriving DecidableEq, Repr

/-- `models.Place`, together with the dynamic `_violations` / `_open_status`
attributes that `candidate_search.py` attaches with `setattr` (modelled as
ordinary fields, defaulted the way `getattr(p, "_violations", [])` and
`getattr(p, "_open_status", None)` default them). -/
structure Place where
  name : String
  address : Option String := none
  lon : ℚ
  lat : ℚ
  website : Option String := none
  opening_hours : Option String := none
  datasource_url : Option String := none
  tags : List String := []
  rating : Option ℚ := none
  violations : List String := []
  open_status : Option Bool := none
deriving DecidableEq, Repr

/-- `models.PreferenceSpec`.  `anchor_lat` / `anchor_lon` are set dynamically
by the HTTP layer (`main.py`) before `resolve_anchor` reads them, hence
`Option ℚ` defaulting to `none`. -/
structure PreferenceSpec where
  city : String
  area : Option String := none
  datetime : Option String := none
  people : Option ℤ := none
  budget_per_capita : Option ℚ := none
  cuisines : List String := []
  taboos : List String := []
  ambiance : List String := []
  need_private_room : Option Bool := none
  rating_min : Option ℚ := none
  distance_km : ℚ := 3
  lang : String := "en"
  must_include_cuisines : List String := []
  must_exclude_cuisines : List String := []
  dining_time : Option String := none
  min_duration_min : ℤ := 60
  strict_open_check : Bool := true
  anchor_poi : Option String := none
  anchor_zip : Option String := none
  anchor_type : Option String := none
  anchor_label : Option String := none
  anchor_lat : Option ℚ := none
  anchor_lon : Option ℚ := none
deriving DecidableEq, Repr

/-- The fields of `config.Configuration` the embedded services read. -/
structure Configuration where
  default_distance_km : ℚ := 3
  bbox_padding_km : ℚ := 3/5
  lang_default : String := "en"
  rerank_enabled : Bool := false
  rerank_weight : ℚ := 2/5
  rerank_top_n : ℤ := 10
  rerank_model : String := "cross-encoder/ms-marco-MiniLM-L-6-v2"
deriving DecidableEq, Repr

/-! ## Small string / number helpers shared by the embedded services -/

/-- Python `str.lower()` (ASCII, as the source data is). -/
def strLower (s : String) : String :=
  String.mk (s.toList.map Char.toLower)

/-- Python `str.strip()`. -/
def strTrim (s : String) : String :=
  String.mk (((s.toList.dropWhile Char.isWhitespace).reverse.dropWhile
    Char.isWhitespace).reverse)

/-- Python `str.replace(old, new)` for single characters. -/
def strReplaceChar (old new : Char) (s : String) : String :=
  String.mk (s.toList.map fun c => if c = old then new else c)

def splitCharAux (sep : Char) : List Char → List Char → List String
  | [], acc => [String.mk acc.reverse]
  | x :: rest, acc =>
    if x = sep then String.mk acc.reverse :: splitCharAux sep rest []
    else splitCharAux sep rest (x :: acc)

/-- Python `str.split(sep)` for a one-character separator (`";"`, `":"`,
`"."` are the only separators the source uses). -/
def splitChar (sep : Char) (s : String) : List String :=
  splitCharAux sep s.toList []

/-- Python's substring test `needle in hay`. -/
def strContains (hay needle : String) : Bool :=
  decide (needle.toList <:+: hay.toList)

/-- Python `str.split()` with no separator: split on whitespace runs,
dropping empty pieces. -/
def pySplitWsAux : List Char → List Char → List String
  | [], acc => if acc = [] then [] else [String.mk acc.reverse]
  | c :: rest, acc =>
    if c.isWhitespace then
      if acc = [] then pySplitWsAux rest []
      else String.mk acc.reverse :: pySplitWsAux rest []
    else pySplitWsAux rest (c :: acc)

def pySplitWs (s : String) : List String :=
  pySplitWsAux s.toList []

/-- `" ".join(xs)`. -/
def joinSpace (xs : List String) : String :=
  String.intercalate " " xs

/-- `" ".join(filter(None, xs))`: drop falsy (empty) strings, then join. -/
def joinSpaceFiltered (xs : List String) : String :=
  joinSpace (xs.filter (· ≠ ""))

/-- Python `int(s)` restricted to the nonempty all-digit strings the
regex-derived call sites can produce. -/
def parseNatDigits (s : String) : Option ℕ :=
  let cs := s.toList
  if cs ≠ [] ∧ cs.all Char.isDigit then
    some (cs.foldl (fun acc c => acc * 10 + (c.toNat - '0'.toNat)) 0)
  else none

/-- `round(x, d)` over exact rationals (see the module comment on half-way
ties). -/
def roundTo (d : ℕ) (x : ℚ) : ℚ :=
  ((round (x * (10 : ℚ) ^ d) : ℤ) : ℚ) / (10 : ℚ) ^ d

/-- CPython `f"{x:.df}"` fixed-point formatting over exact rationals. -/
def fmtFixed (d : ℕ) (x : ℚ) : String :=
  let n : ℤ := round (x * (10 : ℚ) ^ d)
  let sign := if n < 0 then "-" else ""
  let a : ℕ := n.natAbs
  if d = 0 then sign ++ toString a
  else
    let ip := a / 10 ^ d
    let fp := a % 10 ^ d
    let fs := toString fp
    let pad := String.mk (List.replicate (d - fs.length) '0')
    sign ++ toString ip ++ "." ++ pad ++ fs

/-! ## `dedupe_places` (`candidate_search.py` lines 85–94) -/

/-- Python `round(x, 5)` as used in the dedup key. -/
def round5 (x : ℚ) : ℚ := roundTo 5 x

/-- The dedup key `(p.name.strip().lower(), round(p.lon, 5), round(p.lat, 5))`. -/
def dedupKey (p : Place) : String × ℚ × ℚ :=
  (strLower (strTrim p.name), round5 p.lon, round5 p.lat)

/-- `dedupe_places`: keep the first occurrence of every dedup key.  The
Python `seen` set is modelled as the list of keys already emitted. -/
def dedupePlacesAux (seen : List (String × ℚ × ℚ)) : List Place → List Place
  | [] => []
  | p :: rest =>
    let key := dedupKey p
    if key ∈ seen then dedupePlacesAux seen rest
    else p :: dedupePlacesAux (key :: seen) rest

/-- `candidate_search.dedupe_places`. -/
def dedupe_places (items : List Place) : List Place :=
  dedupePlacesAux [] items

/-! ## Opening-hours evaluator (`candidate_search.py` lines 233–342) -/

/-- `_parse_minutes`: `"HH:MM"` → minutes; `None` when the shape is wrong. -/
def parse_minutes (value : String) : Option ℤ :=
  match splitChar ':' value with
  | [h, m] =>
    match parseNatDigits h, parseNatDigits m with
    | some hv, some mv => some ((hv : ℤ) * 60 + (mv : ℤ))
    | _, _ => none
  | _ => none

def DAY_ORDER : List String := ["mo", "tu", "we", "th", "fr", "sa", "su"]

/-- Try to match one two-letter day token at the head of the character list
(the regex alternation `mo|tu|we|th|fr|sa|su`). -/
def matchDayTok : List Char → Option (String × List Char)
  | a :: b :: rest =>
    let tok := String.mk [a, b]
    if tok ∈ DAY_ORDER then some (tok, rest) else none
  | _ => none

/-- Drop leading whitespace (`\s*`). -/
def skipSpaces : List Char → List Char
  | c :: rest => if c.isWhitespace then skipSpaces rest else c :: rest
  | [] => []

/-- Match the regex `(mo|…|su)(?:\s*-\s*(mo|…|su))?` anchored at the head:
a day token with an optional `-`-joined second day (the optional group
matches greedily, backing off to empty when the second token is absent). -/
def matchDayRange (cs : List Char) : Option ((String × Option String) × List Char) :=
  match matchDayTok cs with
  | none => none
  | some (d1, rest) =>
    match skipSpaces rest with
    | '-' :: r3 =>
      match matchDayTok (skipSpaces r3) with
      | some (d2, rest2) => some ((d1, some d2), rest2)
      | none => some ((d1, none), rest)
    | _ => some ((d1, none), rest)

/-- `re.findall` for the day regex: non-overlapping leftmost matches, scanned
left to right.  `fuel` bounds the scan by the input length (each step consumes
at least one character). -/
def findallDays (fuel : ℕ) (cs : List Char) : List (String × Option String) :=
  match fuel, cs with
  | 0, _ => []
  | _, [] => []
  | fuel + 1, c :: rest =>
    match matchDayRange (c :: rest) with
    | some (m, rest2) => m :: findallDays fuel rest2
    | none => findallDays fuel rest

/-- `_segment_days`: the set of day tokens a segment applies to (returned as a
list; the source returns `list(days)` of a set and only membership is ever
used). -/
def segment_days (segment : String) : List String :=
  let s := strLower segment
  if strContains s "daily" ∨ strContains s "every day" then DAY_ORDER
  else
    let ms := findallDays s.length s.toList
    ms.foldl
      (fun days m =>
        match m with
        | (start, some stop) =>
          let start_idx := DAY_ORDER.indexOf start
          let end_idx := DAY_ORDER.indexOf stop
          if start_idx ≤ end_idx then
            days ++ (DAY_ORDER.drop start_idx).take (end_idx + 1 - start_idx)
          else
            days ++ DAY_ORDER.drop start_idx ++ DAY_ORDER.take (end_idx + 1)
        | (start, none) => days ++ [start])
      []

/-- Greedy-first alternatives for `\d{1,2}` at the head of the input:
two digits first, then one. -/
def matchDigits12 : List Char → List (List Char × List Char)
  | a :: b :: rest =>
    if a.isDigit ∧ b.isDigit then [([a, b], rest), ([a], b :: rest)]
    else if a.isDigit then [([a], b :: rest)] else []
  | [a] => if a.isDigit then [([a], [])] else []
  | [] => []

/-- Match `\d{1,2}:\d{2}` anchored at the head, returning the matched text. -/
def matchClock (cs : List Char) : Option (String × List Char) :=
  (matchDigits12 cs).firstM fun (ds, r1) =>
    match r1 with
    | ':' :: x :: y :: r2 =>
      if x.isDigit ∧ y.isDigit then some (String.mk (ds ++ ':' :: [x, y]), r2)
      else none
    | _ => none

/-- Match the full regex `(\d{1,2}:\d{2})\s*-\s*(\d{1,2}:\d{2})` anchored at
the head, returning the two captured groups. -/
def matchTimePairAt (cs : List Char) : Option (String × String) :=
  match matchClock cs with
  | none => none
  | some (g1, r1) =>
    match skipSpaces r1 with
    | '-' :: r2 =>
      match matchClock (skipSpaces r2) with
      | some (g2, _) => some (g1, g2)
      | none => none
    | _ => none

/-- `re.search` for the time-pair regex: first position (left to right) where
the anchored match succeeds. -/
def searchTimePair : List Char → Option (String × String)
  | [] => none
  | c :: rest =>
    match matchTimePairAt (c :: rest) with
    | some g => some g
    | none => searchTimePair rest

/-- `_segment_time_range`: open/close minutes of the one `HH:MM-HH:MM`
interval in a segment; closing ≤ opening wraps past midnight. -/
def segment_time_range (segment : String) : Option (ℤ × ℤ) :=
  match searchTimePair segment.toList with
  | none => none
  | some (g1, g2) =>
    match parse_minutes g1, parse_minutes g2 with
    | some o, some c =>
      if c ≤ o then some (o, c + 24 * 60) else some (o, c)
    | _, _ => none

/-- The per-segment loop of `_is_open_during`, carrying the `evaluated`
flag. -/
def openDuringLoop (td : String) (start stop : ℤ) :
    List String → Bool → Option Bool
  | [], evaluated => if evaluated then some false else none
  | seg :: rest, evaluated =>
    match segment_time_range seg with
    | none => openDuringLoop td start stop rest evaluated
    | some (open_min, close_min) =>
      let days := segment_days seg
      if days ≠ [] ∧ td ≠ "" ∧ td ∉ days then
        openDuringLoop td start stop rest evaluated
      else if open_min ≤ start ∧ stop ≤ close_min then some true
      else openDuringLoop td start stop rest true

/-- `_is_open_during`: `some true` = open, `some false` = closed,
`none` = unknown. -/
def is_open_during (place : Place) (target_day : Option String)
    (start_min duration : ℤ) : Option Bool :=
  match place.opening_hours with
  | none => none
  | some hours =>
    if hours = "" then none
    else
      let segments := ((splitChar ';' hours).map strTrim).filter (· ≠ "")
      if segments = [] then none
      else
        let td := strLower (target_day.getD "")
        openDuringLoop td start_min (start_min + duration) segments false

/-- `_apply_opening_filter`.  Returns the pair
(annotated input list, venues kept): the Python version mutates
`_open_status` / `_violations` on every element it visits and returns the
filtered list, and later code reads the mutated attributes off the full
input, so the embedding returns both. -/
def apply_opening_filter (places : List Place) (spec : PreferenceSpec)
    (target_day : Option String) (start_min : Option ℤ)
    (duration_override : Option ℤ) : List Place × List Place :=
  match start_min with
  | none => (places, places)
  | some s =>
    if s = 0 then (places, places)  -- Python falsy `if not start_min`
    else
      let duration := duration_override.getD spec.min_duration_min
      let annotated := places.map fun p =>
        let status := is_open_during p target_day s duration
        let p' := { p with open_status := status }
        if status = some true then p'
        else if status = none ∧ ¬spec.strict_open_check then
          { p' with violations := p'.violations ++ ["opening_hours_unknown"] }
        else p'
      (annotated,
       annotated.filter fun p =>
         p.open_status = some true ∨
           (p.open_status = none ∧ ¬spec.strict_open_check))

/-! ## Cuisine matching and filters (`candidate_search.py` lines 145–231) -/

def HOTPOT_TOKENS : List String :=
  ["catering.hotpot", "hotpot", "hot pot", "shabu", "shabu-shabu", "haidilao",
   "liuyishou", "boiling point", "little sheep", "mala tang"]

def SPICY_TOKENS : List String :=
  ["sichuan", "chongqing", "spicy", "mala", "hot & spicy", "hunan"]

def SPICY_CATEGORIES : List String :=
  ["catering.restaurant.chinese", "catering.restaurant.thai",
   "catering.restaurant.mexican", "catering.restaurant.indian",
   "catering.restaurant.korean", "catering.restaurant.vietnamese",
   "catering.restaurant.asian"]

/-- `_place_text`. -/
def place_text (place : Place) : String :=
  joinSpaceFiltered [place.name, place.address.getD "", joinSpace place.tags]

/-- `_matches_hotpot`. -/
def matches_hotpot (place : Place) : Bool :=
  let text := strLower (place_text place)
  HOTPOT_TOKENS.any (fun tok => strContains text tok) ||
    place.tags.any (fun tag =>
      tag ≠ "" && HOTPOT_TOKENS.any (fun tok => strContains (strLower tag) tok))

/-- `_matches_spicy`. -/
def matches_spicy (place : Place) : Bool :=
  let text := strLower (place_text place)
  SPICY_TOKENS.any (fun tok => strContains text tok) ||
    place.tags.any (fun tag => tag ∈ SPICY_CATEGORIES)

/-- The per-cuisine predicate one pass of `_filter_by_required_cuisines`
filters with. -/
def required_pred (req : String) (p : Place) : Bool :=
  let r := strLower req
  if r = "hotpot" then matches_hotpot p
  else if r ∈ ["spicy", "sichuan", "szechuan", "chongqing"] then matches_spicy p
  else strContains (strLower (place_text p)) r

/-- `_filter_by_required_cuisines`: one sequential filter pass per required
cuisine. -/
def filter_by_required_cuisines (places : List Place) (required : List String) :
    List Place :=
  if required = [] then places
  else required.foldl (fun acc req => acc.filter (required_pred req)) places

/-- `_filter_by_excluded_cuisines` (only a "spicy" exclusion is recognised). -/
def filter_by_excluded_cuisines (places : List Place) (excluded : List String) :
    List Place :=
  if excluded = [] then places
  else
    let excluded_lower := excluded.map strLower
    places.filter fun place =>
      !("spicy" ∈ excluded_lower && matches_spicy place)

/-! ## `_parse_spec_time` (`candidate_search.py` lines 345–366)

The `datetime.fromisoformat` branch is modelled by a proleptic-Gregorian
ordinal-day computation over the `YYYY-MM-DD[*HH:MM[:SS]]` subset of the ISO
format (Python < 3.11 accepts any single separator character); invalid dates
map to `none`, i.e. the swallowed exception. -/

def isLeapYear (y : ℕ) : Bool := (y % 4 = 0 && y % 100 ≠ 0) || y % 400 = 0

def monthLengths (y : ℕ) : List ℕ :=
  [31, if isLeapYear y then 29 else 28, 31, 30, 31, 30, 31, 31, 30, 31, 30, 31]

/-- `datetime.date.toordinal`: day 1 = 0001-01-01 (a Monday). -/
def dateOrdinal (y m d : ℕ) : ℕ :=
  365 * (y - 1) + (y - 1) / 4 - (y - 1) / 100 + (y - 1) / 400 +
    ((monthLengths y).take (m - 1)).sum + d

/-- `datetime.weekday()`: 0 = Monday. -/
def weekdayOf (y m d : ℕ) : ℕ := (dateOrdinal y m d - 1) % 7

def digitVal (c : Char) : ℕ := c.toNat - '0'.toNat

/-- The subset of `datetime.fromisoformat` the spec-time parser relies on:
weekday and minutes-of-day of `YYYY-MM-DD[*HH:MM[:SS]]`. -/
def isoWeekdayTime (s : String) : Option (ℕ × ℤ) :=
  match s.toList with
  | y1 :: y2 :: y3 :: y4 :: '-' :: m1 :: m2 :: '-' :: d1 :: d2 :: rest =>
    if [y1, y2, y3, y4, m1, m2, d1, d2].all Char.isDigit then
      let y := ((digitVal y1 * 10 + digitVal y2) * 10 + digitVal y3) * 10 + digitVal y4
      let m := digitVal m1 * 10 + digitVal m2
      let d := digitVal d1 * 10 + digitVal d2
      if 1 ≤ m ∧ m ≤ 12 ∧ 1 ≤ d ∧ d ≤ (monthLengths y).getD (m - 1) 0 ∧ 1 ≤ y then
        match rest with
        | [] => some (weekdayOf y m d, 0)
        | _ :: h1 :: h2 :: ':' :: mi1 :: mi2 :: rest2 =>
          if [h1, h2, mi1, mi2].all Char.isDigit then
            let hh := digitVal h1 * 10 + digitVal h2
            let mm := digitVal mi1 * 10 + digitVal mi2
            let secOk := match rest2 with
              | [] => true
              | ':' :: s1 :: s2 :: [] => s1.isDigit && s2.isDigit &&
                  decide (digitVal s1 * 10 + digitVal s2 ≤ 59)
              | _ => false
            if hh ≤ 23 ∧ mm ≤ 59 ∧ secOk = true then
              some (weekdayOf y m d, (hh : ℤ) * 60 + (mm : ℤ))
            else none
          else none
        | _ => none
      else none
    else none
  | _ => none

/-- `_parse_spec_time`. -/
def parse_spec_time (spec : PreferenceSpec) : Option String × Option ℤ :=
  let diningTruthy : Bool := match spec.dining_time with
    | some s => s != ""
    | none => false
  if diningTruthy then
    let dt := spec.dining_time.getD ""
    match pySplitWs dt with
    | [p0, p1] =>
      if (p0.toList.take 3) ≠ [] ∧ (p0.toList.take 3).all Char.isAlpha then
        (some (String.mk ((strLower p0).toList.take 2)), parse_minutes p1)
      else (none, parse_minutes dt)
    | _ => (none, parse_minutes dt)
  else
    match spec.datetime with
    | some iso =>
      if iso ≠ "" then
        match isoWeekdayTime iso with
        | some (wd, minutes) => (some (DAY_ORDER.getD wd ""), some minutes)
        | none => (none, none)
      else (none, none)
    | none => (none, none)

/-! ## BBox builder (`bbox_builder.py`)

`cosd` stands for `lat ↦ math.cos(math.radians(lat))`. -/

/-- `expand_bbox_from_center`: `(min_lon, min_lat, max_lon, max_lat)`. -/
def expand_bbox_from_center (cosd : ℚ → ℚ) (lon lat km : ℚ) :
    ℚ × ℚ × ℚ × ℚ :=
  let dlat := km / (110574 / 1000)
  let dlon := km / (if cosd lat ≠ 0 then (111320 / 1000) * cosd lat
                    else 1 / 1000000)
  (lon - dlon, lat - dlat, lon + dlon, lat + dlat)

/-! ## Ranking (`ranking.py`) -/

/-- The sub-score bundle `debug_scores` (a `dict` in the source). -/
structure DebugScores where
  cuisine : ℚ
  distance : ℚ
  rating : ℚ
  ambience : ℚ
  website : ℚ
deriving DecidableEq, Repr

/-- `models.Candidate` plus the `match_tier` / `match_mode` / `debug_scores`
keyword arguments `rank_candidates` passes to the constructor (the
`detail_sources` enrichment field, never touched by the embedded services,
is omitted). -/
structure Candidate where
  place : Place
  score : ℚ
  reason : String
  pros : List String := []
  cons : List String := []
  highlights : List String := []
  signature_dishes : List String := []
  why_matched : List String := []
  risks : List String := []
  match_cuisine : Bool := false
  match_ambience : Bool := false
  match_budget : Bool := false
  match_distance : Bool := false
  match_popularity : Bool := false
  match_tier : ℕ := 1
  match_mode : String := "strict"
  primary_tags : List String := []
  reliability_score : ℚ := 0
  distance_km : ℚ := 0
  distance_miles : ℚ := 0
  source_hits : ℕ := 0
  source_trust_score : ℚ := 0
  is_open_ok : Bool := true
  violated_constraints : List String := []
  debug_scores : DebugScores := ⟨0, 0, 0, 0, 0⟩
deriving DecidableEq, Repr

def KM_TO_MILES : ℚ := 621371 / 1000000

/-- `CUISINE_PATTERNS` as the ordered `(label, keywords, tags)` table. -/
def CUISINE_PATTERNS : List (String × List String × List String) :=
  [("Sichuan", ["sichuan", "szechuan", "spicy", "mala", "chongqing"],
    ["catering.sichuan", "catering.restaurant.chinese", "catering.restaurant.asian"]),
   ("Hotpot", ["hotpot", "hot pot"], ["catering.hotpot"]),
   ("Japanese", ["japanese", "sushi", "ramen"],
    ["catering.japanese", "catering.restaurant.japanese"]),
   ("Korean", ["korean", "bbq", "soondubu"],
    ["catering.korean", "catering.restaurant.korean"]),
   ("Thai", ["thai"], ["catering.thai", "catering.restaurant.thai"]),
   ("Italian", ["italian", "pasta", "pizza"],
    ["catering.italian", "catering.restaurant.italian"]),
   ("Pizza", ["pizza", "pizzeria", "slice"],
    ["catering.pizza", "catering.restaurant.pizza"]),
   ("Mexican", ["mexican", "taco", "taqueria"],
    ["catering.mexican", "catering.restaurant.mexican"]),
   ("Vegan", ["vegan", "plant-based"], ["catering.vegan"]),
   ("Seafood", ["seafood", "oyster", "lobster", "crab"], ["catering.seafood"]),
   ("BBQ", ["bbq", "barbecue"], ["catering.bbq"])]

def AMBIENCE_PATTERNS : List (String × List String) :=
  [("quiet", ["quiet", "calm", "relaxing"]),
   ("family", ["family", "kid-friendly", "family friendly"]),
   ("casual", ["casual", "laid-back"]),
   ("romantic", ["romantic", "date night"])]

/-- `_tokenize_tags` (a set in the source; only membership is used). -/
def tokenize_tags (tags : List String) : List String :=
  tags.foldl
    (fun tokens raw =>
      let lower := strLower raw
      tokens ++ [lower] ++ (splitChar '.' lower).filter (· ≠ "")) []

/-- `_match_cuisines`. -/
def match_cuisines (name_addr : String) (tokens : List String) : List String :=
  CUISINE_PATTERNS.foldl
    (fun acc entry =>
      if entry.2.1.any (fun kw => strContains name_addr kw) ∨
          entry.2.2.any (fun tkn => tkn ∈ tokens) then
        acc ++ [entry.1]
      else acc) []

/-- `_match_ambience`. -/
def match_ambience (name_addr : String) : List String :=
  AMBIENCE_PATTERNS.foldl
    (fun hits entry =>
      if entry.2.any (fun kw => strContains name_addr kw) then hits ++ [entry.1]
      else hits) []

/-- `_score_rating`. -/
def score_rating (rating : Option ℚ) : ℚ :=
  match rating with
  | none => 2/5
  | some r => min (max (r / 5) 0) 1

/-- `_intersects`. -/
def intersects (preferences labels : List String) : Bool :=
  (preferences.filter (· ≠ "")).any fun p =>
    (labels.filter (· ≠ "")).any fun l =>
      strLower (strTrim p) = strLower (strTrim l)

/-- `list(dict.fromkeys(xs))`: dedup keeping first occurrences. -/
def dedupFirstAux (seen : List String) : List String → List String
  | [] => []
  | x :: rest =>
    if x ∈ seen then dedupFirstAux seen rest
    else x :: dedupFirstAux (x :: seen) rest

def dedupFirst (xs : List String) : List String := dedupFirstAux [] xs

/-- The lower-cased preference-cuisine list `rank_candidates` computes once
before the loop (`spec.cuisines + spec.must_include_cuisines`, deduped). -/
def rankPrefCuisines (spec : PreferenceSpec) : List String :=
  dedupFirst (spec.cuisines.map strLower ++
    spec.must_include_cuisines.map strLower)

/-- The effective radius `max(spec.distance_km or 1.0, 0.5)`. -/
def rankRadiusKm (spec : PreferenceSpec) : ℚ :=
  max (if spec.distance_km = 0 then 1 else spec.distance_km) (1/2)

/-- Python truthiness of `spec.budget_per_capita`. -/
def budgetTruthy (spec : PreferenceSpec) : Bool :=
  match spec.budget_per_capita with
  | some b => b ≠ 0
  | none => false

/-- The `name_addr` text of one loop iteration of `rank_candidates`. -/
def candNameAddr (place : Place) : String :=
  joinSpaceFiltered [place.name, place.address.getD "", joinSpace place.tags]

/-- `cuisine_matches` of one loop iteration. -/
def candCuisineMatches (place : Place) : List String :=
  match_cuisines (strLower (candNameAddr place)) (tokenize_tags place.tags)

/-- `ambience_matches` of one loop iteration. -/
def candAmbienceMatches (place : Place) : List String :=
  match_ambience (strLower (candNameAddr place))

/-- The final `match_cuisine` flag of one loop iteration. -/
def candMatchCuisine (spec : PreferenceSpec) (place : Place) : Bool :=
  if rankPrefCuisines spec ≠ [] then
    intersects (rankPrefCuisines spec) (candCuisineMatches place)
  else candCuisineMatches place ≠ []

/-- The violation list attached to the built candidate: the venue's search
annotations, extended with open-status tags and (when the required cuisines
are not matched) `missing_required_cuisine`. -/
def candViolations (spec : PreferenceSpec) (place : Place) : List String :=
  (place.violations ++
    (if place.open_status = some false then ["closed_at_requested_time"]
     else if place.open_status = none ∧ spec.strict_open_check then
       ["opening_hours_unknown"]
     else [])) ++
  (if spec.must_include_cuisines ≠ [] ∧ ¬candMatchCuisine spec place then
    ["missing_required_cuisine"]
   else [])

/-- `is_open_ok` of the built candidate. -/
def candOpenOk (spec : PreferenceSpec) (place : Place) : Bool :=
  decide (place.open_status = some true ∨
    (place.open_status = none ∧ ¬spec.strict_open_check))

/-- One iteration of the `for place in places` loop of `rank_candidates`:
builds the `Candidate` for one venue.  `hav` stands for
`utils.haversine_km (lat1 lon1 lat2 lon2)`. -/
def mkCandidate (hav : ℚ → ℚ → ℚ → ℚ → ℚ) (spec : PreferenceSpec)
    (bbox_center : ℚ × ℚ) (place : Place) : Candidate :=
  let pref_cuisines := rankPrefCuisines spec
  let pref_ambience := spec.ambiance.map strLower
  let radius_km := rankRadiusKm spec
  let cuisine_matches := candCuisineMatches place
  let ambience_matches := candAmbienceMatches place
  let dist_km := hav bbox_center.2 bbox_center.1 place.lat place.lon
  let dist_mi := dist_km * KM_TO_MILES
  let distance_score := max 0 (1 - dist_km / (if radius_km ≠ 0 then radius_km else 1))
  let rating_score := score_rating place.rating
  let has_website : ℚ := match place.website with
    | some w => if w ≠ "" then 1 else 0
    | none => 0
  let cuisine_score : ℚ :=
    if cuisine_matches ≠ [] then
      if intersects pref_cuisines cuisine_matches then 1 else 4/5
    else if pref_cuisines ≠ [] then 1/5
    else 1/2
  let ambience_score : ℚ :=
    if pref_ambience ≠ [] then
      if intersects pref_ambience ambience_matches then 1 else 3/10
    else if ambience_matches ≠ [] then 7/10
    else 1/2
  let reliability := rating_score * (1/2) + has_website * (1/5) +
    ((min cuisine_matches.length 3 : ℕ) : ℚ) / 3 * (3/10)
  let violations0 := place.violations
  let violation_penalty : ℚ :=
    (if "missing_required_cuisine" ∈ violations0 then 3/10 else 0) +
    -- `"category_relaxed" in str(violations)`: the tag alphabet cannot make
    -- the needle span two quoted list elements, so this is an any-element
    -- substring test.
    (if violations0.any (fun v => strContains v "category_relaxed") then 1/10 else 0)
  let total_score := cuisine_score * (35/100) + distance_score * (25/100) +
    rating_score * (25/100) + ambience_score * (1/10) + has_website * (1/20) -
    violation_penalty
  let debug_scores : DebugScores :=
    ⟨roundTo 4 cuisine_score, roundTo 4 distance_score, roundTo 4 rating_score,
     roundTo 4 ambience_score, roundTo 4 has_website⟩
  let pros :=
    (if cuisine_matches ≠ [] then
      ["Cuisine match: " ++ String.intercalate ", " cuisine_matches] else []) ++
    (if ambience_matches ≠ [] ∧ pref_ambience ≠ [] then
      ["Ambience keywords: " ++ String.intercalate ", " ambience_matches] else []) ++
    (match place.rating with
     | some r => ["Average rating " ++ fmtFixed 1 r ++ "â˜…"]
     | none => []) ++
    ["Approx. " ++ fmtFixed 1 dist_mi ++ " miles from target area"]
  let cons :=
    (if cuisine_matches = [] ∧ pref_cuisines ≠ [] then
      ["Cuisine preference not explicitly detected"] else []) ++
    (if ¬(ambience_matches ≠ [] ∧ pref_ambience ≠ []) ∧ pref_ambience ≠ [] then
      ["Ambience preference not confirmed"] else []) ++
    (if place.rating = none then ["Rating unavailable"] else []) ++
    (if budgetTruthy spec then ["Budget not verified against menu prices"] else [])
  let reason_lines :=
    ["- Distance: " ++ fmtFixed 1 dist_km ++ " km (" ++ fmtFixed 1 dist_mi ++ " miles)"] ++
    pros.map (fun text => "- Pro: " ++ text) ++
    cons.map (fun text => "- Risk: " ++ text)
  let match_cuisine := candMatchCuisine spec place
  let match_ambience := if pref_ambience ≠ [] then intersects pref_ambience ambience_matches
    else ambience_matches ≠ []
  let violations2 := candViolations spec place
  let relaxedTier := "missing_required_cuisine" ∈ violations2
  { place := place
    score := roundTo 4 total_score
    reason := String.intercalate "\n" reason_lines
    pros := pros
    cons := cons
    match_cuisine := match_cuisine
    match_ambience := match_ambience
    match_budget := budgetTruthy spec
    match_distance := decide (dist_km ≤ radius_km * (11/10))
    match_popularity := false
    match_tier := if relaxedTier then 2 else 1
    match_mode := if relaxedTier then "relaxed" else "strict"
    primary_tags := cuisine_matches
    reliability_score := roundTo 4 reliability
    distance_km := roundTo 3 dist_km
    distance_miles := roundTo 3 dist_mi
    source_hits := 0
    source_trust_score := 0
    is_open_ok := candOpenOk spec place
    violated_constraints := violations2
    debug_scores := debug_scores }

/-- The partition test: venues that are closed (or unknown under strict
checking) go to the `fallback` list. -/
def rankFallbackTest (spec : PreferenceSpec) (c : Candidate) : Bool :=
  c.place.open_status == some false ||
    (c.place.open_status == none && spec.strict_open_check)

/-- Stable insert of `a` before the first element `b` with `le a b`. -/
def insertLe (le : α → α → Bool) (a : α) : List α → List α
  | [] => [a]
  | b :: bs => if le a b then a :: b :: bs else b :: insertLe le a bs

/-- Python's stable `list.sort(key=...)` as a structural stable insertion
sort: ascending in `le`, ties keeping the original order. -/
def pySortBy (le : α → α → Bool) : List α → List α
  | [] => []
  | a :: as => insertLe le a (pySortBy le as)

/-- The two-tier sort key `(c.match_tier, -c.score)` as a total Boolean
order (ties hold in both directions, so the stable sort keeps the original
order on them, exactly as Python's sort does). -/
def rankLe (a b : Candidate) : Bool :=
  decide (a.match_tier < b.match_tier) ||
    (a.match_tier == b.match_tier && decide (b.score ≤ a.score))

/-- `ranking.rank_candidates`. -/
def rank_candidates (hav : ℚ → ℚ → ℚ → ℚ → ℚ) (spec : PreferenceSpec)
    (places : List Place) (bbox_center : ℚ × ℚ) (max_results : ℤ) :
    List Candidate :=
  let mr := (max 1 max_results).toNat
  let cands := places.map (mkCandidate hav spec bbox_center)
  let qualified := cands.filter fun c => !rankFallbackTest spec c
  let fallback := cands.filter fun c => rankFallbackTest spec c
  let qualifiedS := pySortBy rankLe qualified
  let fallbackS := pySortBy rankLe fallback
  let results1 := if qualifiedS ≠ [] then qualifiedS.take mr else []
  let results2 :=
    if results1.length < mr ∧ fallbackS ≠ [] then
      fallbackS.take (mr - results1.length)
    else []
  (results1 ++ results2).take mr

/-! ## External reranking (`rerank.py`)

The cross-encoder capability is an injected function
`cap : query → documents → Except Unit (List ℚ)`; an `error` result covers
both "sentence-transformers not installed" (the `RuntimeError` path, caught
at scoring time) and any exception thrown by `CrossEncoder.predict` — all of
which `apply_rerank` catches and turns into a no-op.  The module-level
`_singleton` cache only memoises the model object and has no functional
effect. -/

/-- `rerank._normalize`: min-max normalisation to `[0,1]`, constant input
mapping to all-`0.5`. -/
def rerankNormalize (scores : List ℚ) : List ℚ :=
  match scores with
  | [] => []
  | s :: rest =>
    let min_v := rest.foldl min s
    let max_v := rest.foldl max s
    if max_v - min_v < 1/1000000 then scores.map fun _ => 1/2
    else scores.map fun x => (x - min_v) / (max_v - min_v)

/-- `rerank._build_query`. -/
def build_query (spec : PreferenceSpec) : String :=
  String.intercalate " | "
    ((if spec.city ≠ "" then ["Best restaurants in " ++ spec.city] else []) ++
     (match spec.area with
      | some a => if a ≠ "" then ["Neighborhood: " ++ a] else []
      | none => []) ++
     (if spec.cuisines ≠ [] then
       ["Cuisine: " ++ String.intercalate ", " spec.cuisines] else []) ++
     (if spec.ambiance ≠ [] then
       ["Ambience: " ++ String.intercalate ", " spec.ambiance] else []) ++
     (if budgetTruthy spec then
       ["Budget $" ++ fmtFixed 0 (spec.budget_per_capita.getD 0) ++ " per person"]
      else []))

/-- `rerank._build_document`. -/
def build_document (candidate : Candidate) : String :=
  let place := candidate.place
  let tags := if candidate.primary_tags ≠ [] then candidate.primary_tags
    else place.tags.filter (· ≠ "")
  let prosJoined := String.intercalate "; " candidate.pros
  let snippets := [place.name, place.address.getD "",
    String.intercalate ", " tags,
    if prosJoined ≠ "" then prosJoined else candidate.reason]
  String.intercalate " | " (snippets.filter (· ≠ ""))

/-- `rerank.apply_rerank`. -/
def apply_rerank (cap : String → List String → Except Unit (List ℚ))
    (cfg : Configuration) (spec : PreferenceSpec)
    (candidates : List Candidate) : List Candidate :=
  if ¬cfg.rerank_enabled ∨ candidates = [] then candidates
  else
    let top_n := (max 1 (min cfg.rerank_top_n (candidates.length : ℤ))).toNat
    let subset := candidates.take top_n
    let query := build_query spec
    let documents := subset.map build_document
    match cap query documents with
    | .error _ => candidates
    | .ok scores =>
      let normalized := rerankNormalize scores
      let weight := max 0 (min cfg.rerank_weight 1)
      let updatedSubset :=
        (subset.zipWith
          (fun c s => { c with score := (1 - weight) * c.score + weight * s })
          normalized) ++ subset.drop normalized.length
      let full := updatedSubset ++ candidates.drop top_n
      pySortBy (fun a b => decide (b.score ≤ a.score)) full

/-! ## Anchor resolution (`candidate_search.py` lines 97–133, 372–457) -/

/-- `_normalize_token`: keep `[a-z0-9 ]` of the lower-cased text, then
strip. -/
def normalize_token (text : String) : String :=
  if text = "" then ""
  else
    strTrim (String.mk ((strLower text).toList.filter fun c =>
      ('a' ≤ c ∧ c ≤ 'z') ∨ c.isDigit ∨ c = ' '))

/-- `_normalize_city`: commas to spaces, lower, drop a trailing two-letter
state code, re-normalise. -/
def normalize_city (text : String) : String :=
  if text = "" then ""
  else
    let cleaned := strTrim (strLower (strReplaceChar ',' ' ' text))
    let parts := pySplitWs cleaned
    let lastPart := (parts.getLast?).getD ""
    let parts2 :=
      if parts ≠ [] ∧ lastPart.length = 2 ∧ lastPart.toList.all Char.isAlpha then
        parts.dropLast
      else parts
    normalize_token (joinSpace parts2)

structure CityEntry where
  canonical : String
  state : String
  center : ℚ × ℚ
  aliases : List String
  areas : List (String × (ℚ × ℚ))
deriving DecidableEq, Repr

/-- `US_CITY_REGISTRY` (a `dict`; modelled as the insertion-ordered
association list). -/
def US_CITY_REGISTRY : List (String × CityEntry) :=
  [("seattle",
    { canonical := "Seattle", state := "WA", center := (-122.3321, 47.6062)
      aliases := ["seattle wa", "seattle washington", "seattle, wa"]
      areas := [("capitol hill", (-122.3204, 47.6230)),
                ("capitolhill", (-122.3204, 47.6230)),
                ("u district", (-122.3035, 47.6603)),
                ("university district", (-122.3035, 47.6603)),
                ("ballard", (-122.3800, 47.6686)),
                ("fremont", (-122.3493, 47.6512)),
                ("queen anne", (-122.3570, 47.6265)),
                ("south lake union", (-122.3381, 47.6235))] }),
   ("san francisco",
    { canonical := "San Francisco", state := "CA", center := (-122.4194, 37.7749)
      aliases := ["sf", "san francisco ca", "san francisco, ca"]
      areas := [("soma", (-122.4006, 37.7817)),
                ("mission", (-122.4192, 37.7599)),
                ("mission district", (-122.4192, 37.7599)),
                ("fishermans wharf", (-122.4147, 37.8080)),
                ("north beach", (-122.4109, 37.8061)),
                ("nob hill", (-122.4156, 37.7930))] }),
   ("new york",
    { canonical := "New York", state := "NY", center := (-73.9855, 40.7580)
      aliases := ["nyc", "new york city", "new york, ny"]
      areas := [("manhattan", (-73.9712, 40.7831)),
                ("midtown", (-73.9817, 40.7549)),
                ("flushing", (-73.8320, 40.7557)),
                ("brooklyn", (-73.9442, 40.6782)),
                ("queens", (-73.7949, 40.7282)),
                ("lower east side", (-73.9874, 40.7150))] }),
   ("los angeles",
    { canonical := "Los Angeles", state := "CA", center := (-118.2437, 34.0522)
      aliases := ["la", "los angeles ca", "los angeles, ca"]
      areas := [("hollywood", (-118.3287, 34.0928)),
                ("santa monica", (-118.4965, 34.0195)),
                ("downtown", (-118.2440, 34.0407)),
                ("koreatown", (-118.3000, 34.0584)),
                ("west hollywood", (-118.3617, 34.0900))] }),
   ("austin",
    { canonical := "Austin", state := "TX", center := (-97.7431, 30.2672)
      aliases := ["austin tx", "austin, tx"]
      areas := [("downtown", (-97.7431, 30.2687)),
                ("south congress", (-97.7490, 30.2490)),
                ("east austin", (-97.7200, 30.2639)),
                ("domain", (-97.7249, 30.4018))] })]

/-- `_lookup_us_location`. -/
def lookup_us_location (city : String) (area : Option String) :
    Option (ℚ × ℚ) :=
  let city_norm := normalize_city city
  if city_norm = "" then none
  else
    let entry? := match US_CITY_REGISTRY.lookup city_norm with
      | some e => some e
      | none =>
        (US_CITY_REGISTRY.map Prod.snd).find? fun e => city_norm ∈ e.aliases
    match entry? with
    | none => none
    | some entry =>
      match area with
      | some a =>
        if a ≠ "" then
          match entry.areas.lookup (normalize_token a) with
          | some pt => some pt
          | none => some entry.center
        else some entry.center
      | none => some entry.center

/-- The Geoapify capability surface the embedded services call.  Each method
may fail (`GeoapifyError`, modelled as `Except.error ()`), return nothing
(`.ok none` / `.ok []`) or succeed. -/
structure GeoapifyClient where
  geocode : String → String → Except Unit (Option GeocodeResult)
  places_circle : ℚ → ℚ → ℚ → Option String → ℕ → String → Except Unit (List Place)
  places_rect : ℚ → ℚ → ℚ → ℚ → Option String → ℕ → String → Except Unit (List Place)

/-- `spec.lang or cfg.lang_default or "en"`. -/
def specLang (cfg : Configuration) (spec : PreferenceSpec) : String :=
  if spec.lang ≠ "" then spec.lang
  else if cfg.lang_default ≠ "" then cfg.lang_default
  else "en"

/-- Truthiness of `spec.area`. -/
def areaTruthy (spec : PreferenceSpec) : Bool :=
  match spec.area with
  | some a => a != ""
  | none => false

/-- `spec.area or spec.city or ""`. -/
def areaOrCity (spec : PreferenceSpec) : String :=
  match spec.area with
  | some a => if a ≠ "" then a else (if spec.city ≠ "" then spec.city else "")
  | none => if spec.city ≠ "" then spec.city else ""

/-- The free-text query resolve_anchor geocodes as a last resort:
`spec.city`, extended with the area when the area is not already a substring
of it. -/
def resolveGeocodeText (spec : PreferenceSpec) : String :=
  match spec.area with
  | some a =>
    if a ≠ "" ∧ ¬strContains spec.city a then
      if spec.city ≠ "" then spec.city ++ " " ++ a else a
    else spec.city
  | none => spec.city

/-- The POI query of strategy 2: the POI name, disambiguated with the city
when the city is not already mentioned. -/
def resolvePoiQuery (spec : PreferenceSpec) (poi : String) : String :=
  if spec.city ≠ "" ∧ ¬strContains (strLower poi) (strLower spec.city) then
    poi ++ " " ++ spec.city
  else poi

/-- Strategy 2: the POI anchor.  A `GeoapifyError` or an empty geocode
result both fall through (`None`). -/
def poiStrategy (client : GeoapifyClient) (cfg : Configuration)
    (spec : PreferenceSpec) : Option (ℚ × ℚ × String × String) :=
  match spec.anchor_poi with
  | some poi =>
    if poi ≠ "" then
      match client.geocode (resolvePoiQuery spec poi) (specLang cfg spec) with
      | .ok (some r) => some (r.lon, r.lat, "poi", poi)
      | _ => none
    else none
  | none => none

/-- Strategy 3: the ZIP anchor, same fall-through behaviour. -/
def zipStrategy (client : GeoapifyClient) (cfg : Configuration)
    (spec : PreferenceSpec) : Option (ℚ × ℚ × String × String) :=
  match spec.anchor_zip with
  | some z =>
    if z ≠ "" then
      match client.geocode z (specLang cfg spec) with
      | .ok (some r) => some (r.lon, r.lat, "zip", z)
      | _ => none
    else none
  | none => none

/-- Strategy 4: the `preferred_point` registry lookup computed up front. -/
def registryStrategy (spec : PreferenceSpec) : Option (ℚ × ℚ) :=
  if spec.city ≠ "" then lookup_us_location spec.city spec.area else none

/-- Strategy 5: the free-text geocode, retried with the city alone when the
combined text yields nothing. -/
def textStrategy (client : GeoapifyClient) (cfg : Configuration)
    (spec : PreferenceSpec) : Option GeocodeResult :=
  let geocode_text := resolveGeocodeText spec
  let geo1 : Option GeocodeResult :=
    if geocode_text ≠ "" then
      match client.geocode geocode_text (specLang cfg spec) with
      | .ok g => g
      | .error _ => none
    else none
  match geo1 with
  | some g => some g
  | none =>
    if geocode_text ≠ "" ∧ spec.city ≠ "" then
      match client.geocode spec.city (specLang cfg spec) with
      | .ok g => g
      | .error _ => none
    else none

/-- The chain of strategies 2–5 that runs when no explicit coordinates were
supplied. -/
def resolveAnchorRest (client : GeoapifyClient) (cfg : Configuration)
    (spec : PreferenceSpec) : Except String (ℚ × ℚ × String × String) :=
  match poiStrategy client cfg spec with
  | some r => .ok r
  | none =>
    match zipStrategy client cfg spec with
    | some r => .ok r
    | none =>
      match registryStrategy spec with
      | some pt =>
        .ok (pt.1, pt.2, if areaTruthy spec then "area" else "city",
             areaOrCity spec)
      | none =>
        match textStrategy client cfg spec with
        | some g =>
          .ok (g.lon, g.lat, "city",
               if resolveGeocodeText spec ≠ "" then resolveGeocodeText spec
               else spec.city)
        | none => .error "Failed to determine search anchor."

/-- `candidate_search.resolve_anchor`: `(lon, lat, anchor_type, anchor_label)`
or the `ValueError` raised when every strategy yields nothing.  Explicit
coordinates (strategy 1) short-circuit everything else. -/
def resolve_anchor (client : GeoapifyClient) (cfg : Configuration)
    (spec : PreferenceSpec) : Except String (ℚ × ℚ × String × String) :=
  match spec.anchor_lat, spec.anchor_lon with
  | some la, some lo =>
    .ok (lo, la, "coord", fmtFixed 4 la ++ "," ++ fmtFixed 4 lo)
  | _, _ => resolveAnchorRest client cfg spec

/-! ## Expanding-radius search (`candidate_search.py` lines 460–659) -/

/-- `_safe_radius_km`. -/
def safe_radius_km (spec : PreferenceSpec) (cfg : Configuration) : ℚ :=
  max (if spec.distance_km = 0 then cfg.default_distance_km else spec.distance_km)
    (1/2)

def MAX_RADIUS_KM : ℚ := 20

/-- The comma-joined spicy category string built inside `search_candidates`
(same seven categories in the same order as `SPICY_CATEGORIES`). -/
def SPICY_CATEGORIES_JOINED : String := String.intercalate "," SPICY_CATEGORIES

/-- The ordered `(categories, violation-tag, enforce-required)` attempt
table. -/
def categoryAttempts (spec : PreferenceSpec) : List (Option String × Option String × Bool) :=
  let required_cuisines := spec.must_include_cuisines.map strLower
  let requires_pizza := required_cuisines.any fun c => strContains c "pizza"
  let requires_sichuan := required_cuisines.any fun c => c ∈ ["sichuan", "szechuan", "spicy"]
  if requires_pizza then
    [(some "catering.pizza", none, true),
     (some "catering.italian", some "category_relaxed:pizza->italian", false),
     (some "catering.restaurant", some "category_relaxed:pizza->restaurant", false)]
  else if requires_sichuan then
    [(some SPICY_CATEGORIES_JOINED, none, false),
     (some "catering.restaurant", some "category_relaxed:sichuan->restaurant", false)]
  else [(some "catering.restaurant", none, true)]

/-- `violations.append(v)` on one venue. -/
def addViolation (v : String) (p : Place) : Place :=
  { p with violations := p.violations ++ [v] }

/-- `if v not in violations: violations.append(v)`. -/
def addViolationIfAbsent (v : String) (p : Place) : Place :=
  if v ∈ p.violations then p else addViolation v p

/-- `try: places = client...  except GeoapifyError: places = []`. -/
def orEmptyPlaces : Except Unit (List Place) → List Place
  | .ok l => l
  | .error _ => []

/-- The read-only context of one `search_candidates` run. -/
structure SearchCtx where
  client : GeoapifyClient
  cosd : ℚ → ℚ
  cfg : Configuration
  spec : PreferenceSpec
  lang : String
  minr : ℕ
  base_radius : ℚ
  center_lon : ℚ
  center_lat : ℚ
  requires_pizza : Bool

/-- The mutable loop state: `collected`, `seen` and `relaxed_capture`. -/
structure SearchState where
  collected : List Place
  seen : List (String × ℚ × ℚ)
  relaxed : Option (List Place × (ℚ × ℚ × ℚ × ℚ) × ℚ)
deriving DecidableEq, Repr

/-- The value an early or final `return` of `search_candidates` produces:
the places, the bbox, and the (possibly `distance_km`-updated) spec. -/
structure SearchDone where
  places : List Place
  bbox : ℚ × ℚ × ℚ × ℚ
  spec : PreferenceSpec
deriving DecidableEq, Repr

/-- The `for place in working_places` dedup-append loop. -/
def collectNew (seen : List (String × ℚ × ℚ)) (collected : List Place) :
    List Place → List (String × ℚ × ℚ) × List Place
  | [] => (seen, collected)
  | p :: rest =>
    let key := dedupKey p
    if key ∈ seen then collectNew seen collected rest
    else collectNew (key :: seen) (collected ++ [p]) rest

/-- The provider part of one category attempt: the circle query, falling
back to the rectangular query over the bbox when empty (either query's
`GeoapifyError` counting as empty). -/
def attemptPlaces (ctx : SearchCtx) (radius : ℚ) (bbox : ℚ × ℚ × ℚ × ℚ)
    (att : Option String × Option String × Bool) : List Place :=
  let effective_radius := radius + ctx.cfg.bbox_padding_km
  let places1 := orEmptyPlaces (ctx.client.places_circle ctx.center_lon
    ctx.center_lat effective_radius att.1 60 ctx.lang)
  if places1 = [] then
    orEmptyPlaces (ctx.client.places_rect bbox.1 bbox.2.1 bbox.2.2.1 bbox.2.2.2
      att.1 50 ctx.lang)
  else places1

/-- The filtering/annotation part of one category attempt: dedup, cuisine
filters, the opening-hours pass (with its two retry branches), and the
strict-vs-relaxed cuisine tagging.  Produces the `working_places` list the
attempt goes on to collect. -/
def attemptWorking (ctx : SearchCtx) (att : Option String × Option String × Bool)
    (places2 : List Place) : List Place :=
  let enforce_required := att.2.2
  let working0 := (dedupe_places places2).map fun p => { p with violations := [] }
  let working1 :=
    if ctx.spec.must_include_cuisines ≠ [] ∧ enforce_required then
      filter_by_required_cuisines working0 ctx.spec.must_include_cuisines
    else working0
  let working2 :=
    if ctx.spec.must_exclude_cuisines ≠ [] then
      filter_by_excluded_cuisines working1 ctx.spec.must_exclude_cuisines
    else working1
  let dayStart := parse_spec_time ctx.spec
  let target_day := dayStart.1
  let start_minutes := dayStart.2
  let pass1 := apply_opening_filter working2 ctx.spec target_day start_minutes none
  -- the retry with every venue tagged `missing_required_cuisine` when the
  -- strict pass empties the set
  let step2 :=
    if pass1.2 = [] ∧ ctx.spec.must_include_cuisines ≠ [] ∧ enforce_required then
      let relaxed := pass1.1.map (addViolation "missing_required_cuisine")
      let relaxedF :=
        if ctx.spec.must_exclude_cuisines ≠ [] then
          filter_by_excluded_cuisines relaxed ctx.spec.must_exclude_cuisines
        else relaxed
      (relaxed, (apply_opening_filter relaxedF ctx.spec target_day start_minutes none).2)
    else pass1
  let workingAnn := step2.1
  let afterOpen2 := step2.2
  let all_open_unknown := workingAnn.all fun p => p.open_status = none
  -- the strict-mode all-unknown relaxation (start −15 min, duration −15 min)
  let afterOpen3 :=
    if afterOpen2 = [] ∧ ctx.spec.strict_open_check ∧ start_minutes ≠ none ∧
        all_open_unknown = true then
      match start_minutes with
      | some sm =>
        let relaxed_start := max (sm - 15) (20 * 60)
        let relaxed_duration := max 45 (ctx.spec.min_duration_min - 15)
        let pass3 := apply_opening_filter workingAnn ctx.spec target_day
          (some relaxed_start) (some relaxed_duration)
        if pass3.2 ≠ [] then pass3.2.map (addViolation "opening_relaxed")
        else pass3.2
      | none => afterOpen2
    else afterOpen2
  -- tag strict vs. relaxed matches for ranking without re-filtering
  if ctx.spec.must_include_cuisines ≠ [] ∧ afterOpen3 ≠ [] then
    afterOpen3.map fun p =>
      if ctx.spec.must_include_cuisines.all (fun req => required_pred req p) then p
      else addViolationIfAbsent "missing_required_cuisine" p
  else afterOpen3

/-- The `radius_expanded` / category-relaxation tagging of the surviving
venues of one attempt. -/
def attemptTagged (ctx : SearchCtx) (radius : ℚ)
    (att : Option String × Option String × Bool) (working4 : List Place) :
    List Place :=
  let working5 :=
    if ctx.base_radius < radius then working4.map (addViolation "radius_expanded")
    else working4
  match att.2.1 with
  | some cv => working5.map (addViolation cv)
  | none => working5

/-- One iteration of the `for categories, category_violation,
enforce_required in category_attempts` loop: either the updated state
(`continue`) or the early `return` value. -/
def processAttempt (ctx : SearchCtx) (radius : ℚ) (bbox : ℚ × ℚ × ℚ × ℚ)
    (st : SearchState) (att : Option String × Option String × Bool) :
    SearchState ⊕ SearchDone :=
  let places2 := attemptPlaces ctx radius bbox att
  if places2 = [] then .inl st
  else
    let working4 := attemptWorking ctx att places2
    if working4 = [] then .inl st
    else
      let working6 := attemptTagged ctx radius att working4
      if att.2.1 ≠ none ∧ ctx.requires_pizza ∧ ¬att.2.2 then
        .inl { st with relaxed :=
          if st.relaxed = none then some (working6, bbox, radius) else st.relaxed }
      else
        let sc := collectNew st.seen st.collected working6
        if ctx.minr ≤ sc.2.length then
          .inr ⟨sc.2.take ctx.minr, bbox, { ctx.spec with distance_km := radius }⟩
        else .inl { st with seen := sc.1, collected := sc.2 }

/-- The whole `for ... in category_attempts` loop at one radius. -/
def processAttempts (ctx : SearchCtx) (radius : ℚ) (bbox : ℚ × ℚ × ℚ × ℚ) :
    SearchState → List (Option String × Option String × Bool) →
    SearchState ⊕ SearchDone
  | st, [] => .inl st
  | st, att :: rest =>
    match processAttempt ctx radius bbox st att with
    | .inl st' => processAttempts ctx radius bbox st' rest
    | .inr done => .inr done

/-- The code after the while loop: return collected, else the relaxed
capture, else `([], final_bbox)`. -/
def exhaustResult (ctx : SearchCtx) (radius : ℚ) (bbox : ℚ × ℚ × ℚ × ℚ)
    (st : SearchState) : SearchDone :=
  if st.collected ≠ [] then
    ⟨st.collected, bbox, { ctx.spec with distance_km := radius }⟩
  else
    match st.relaxed with
    | some cap => ⟨cap.1, cap.2.1, { ctx.spec with distance_km := cap.2.2 }⟩
    | none => ⟨[], bbox, ctx.spec⟩

/-- The `while radius <= MAX_RADIUS_KM + 1e-6` loop.  `fuel` only bounds the
recursion; the loop itself exits through the `radius >= 20` break (the radius
grows by at least 2 km per iteration, so fuel 32 is never exhausted from the
entry point below). -/
def searchLoop (ctx : SearchCtx)
    (attempts : List (Option String × Option String × Bool)) :
    ℕ → ℚ → (ℚ × ℚ × ℚ × ℚ) → SearchState → SearchDone
  | 0, radius, bbox, st => exhaustResult ctx radius bbox st
  | fuel + 1, radius, bbox, st =>
    if radius ≤ MAX_RADIUS_KM + 1/1000000 then
      let effective_radius := radius + ctx.cfg.bbox_padding_km
      let bbox' := expand_bbox_from_center ctx.cosd ctx.center_lon
        ctx.center_lat effective_radius
      match processAttempts ctx radius bbox' st attempts with
      | .inr done => done
      | .inl st' =>
        if MAX_RADIUS_KM ≤ radius then exhaustResult ctx radius bbox' st'
        else searchLoop ctx attempts fuel
          (min MAX_RADIUS_KM (radius + max 2 (radius * (1/2)))) bbox' st'
    else exhaustResult ctx radius bbox st

/-- The context `search_candidates` sets up before its while loop: the
anchor recorded into the spec, the clamped `min_results`, the base radius
and the pizza-requirement flag. -/
def searchCtxOf (client : GeoapifyClient) (cosd : ℚ → ℚ) (cfg : Configuration)
    (spec : PreferenceSpec) (min_results : ℤ)
    (anchor : ℚ × ℚ × String × String) : SearchCtx :=
  { client := client, cosd := cosd, cfg := cfg
    spec := { spec with anchor_type := some anchor.2.2.1,
                        anchor_label := some anchor.2.2.2 }
    lang := specLang cfg spec
    minr := (max 1 min_results).toNat
    base_radius := safe_radius_km spec cfg
    center_lon := anchor.1
    center_lat := anchor.2.1
    requires_pizza :=
      (spec.must_include_cuisines.map strLower).any fun c => strContains c "pizza" }

/-- `search_candidates` from a resolved anchor onwards. -/
def searchFromAnchor (client : GeoapifyClient) (cosd : ℚ → ℚ)
    (cfg : Configuration) (spec : PreferenceSpec) (min_results : ℤ)
    (anchor : ℚ × ℚ × String × String) : SearchDone :=
  let ctx := searchCtxOf client cosd cfg spec min_results anchor
  let default_bbox := expand_bbox_from_center cosd anchor.1 anchor.2.1
    (safe_radius_km spec cfg + cfg.bbox_padding_km)
  searchLoop ctx (categoryAttempts spec) 32 (safe_radius_km spec cfg)
    default_bbox ⟨[], [], none⟩

/-- `candidate_search.search_candidates`; the `Except` layer carries the
`ValueError` that `resolve_anchor` can raise when no anchor is supplied. -/
def search_candidates (client : GeoapifyClient) (cosd : ℚ → ℚ)
    (cfg : Configuration) (spec : PreferenceSpec) (min_results : ℤ)
    (anchor : Option (ℚ × ℚ × String × String)) : Except String SearchDone :=
  match anchor with
  | some a => .ok (searchFromAnchor client cosd cfg spec min_results a)
  | none =>
    match resolve_anchor client cfg spec with
    | .error e => .error e
    | .ok a => .ok (searchFromAnchor client cosd cfg spec min_results a)

/-! ## Shared concrete inputs used by witnesses and counterexamples -/

/-- A venue whose schedule is the spec's round-trip example. -/
def demoHoursPlace : Place :=
  { name := "Demo", lon := 0, lat := 0, opening_hours := some "mo-fr 11:00-22:00" }

/-- A concrete stand-in for `haversine_km`: distance = venue latitude. -/
def demoHav : ℚ → ℚ → ℚ → ℚ → ℚ := fun _ _ la _ => la

/-- A spec requiring pizza, radius 3 km. -/
def demoSpecPizza : PreferenceSpec :=
  { city := "Seattle", must_include_cuisines := ["pizza"], distance_km := 3 }

/-- Open at the requested time but no pizza match: tier 2, qualified. -/
def demoOpenDiner : Place :=
  { name := "Generic Diner", lon := 0, lat := 1, open_status := some true }

/-- A pizza match that is closed at the requested time: tier 1, fallback. -/
def demoClosedPizza : Place :=
  { name := "Pagliacci Pizza", tags := ["catering.pizza"], lon := 0, lat := 1,
    open_status := some false }

/-- A provider that always raises nothing and finds nothing. -/
def emptyGeoClient : GeoapifyClient :=
  ⟨fun _ _ => .ok none, fun _ _ _ _ _ _ => .ok [], fun _ _ _ _ _ _ _ => .ok []⟩

/-! ## C1 — opening-hours round trip -/

/-- **C1, counterexample.**  The claim says the evaluator returns closed
(`False`) for `(day="sa", start=19:00, duration=60)` on
`"mo-fr 11:00-22:00"`.  It does not: the only segment's day set does not
contain `sa`, so the segment is skipped, the `evaluated` flag never becomes
true, and `_is_open_during` returns `None` (unknown), not `False`. -/
theorem C1_sa_is_unknown_not_closed :
    is_open_during demoHoursPlace (some "sa") 1140 60 ≠ some false ∧
    is_open_during demoHoursPlace (some "sa") 1140 60 = none := by
  have hnone : is_open_during demoHoursPlace (some "sa") 1140 60 = none := by rfl
  exact ⟨fun h => Option.noConfusion (hnone ▸ h), hnone⟩

/-- **C1, amended.**  On the schedule `"mo-fr 11:00-22:00"`, the evaluator
returns open for `(day="we", 19:00, 60)`, unknown (`None`, not closed) for
`(day="sa", 19:00, 60)` because no segment is evaluated for that day, and
unknown when the venue has no schedule string. -/
theorem C1_opening_hours_roundtrip :
    is_open_during demoHoursPlace (some "we") 1140 60 = some true ∧
    is_open_during demoHoursPlace (some "sa") 1140 60 = none ∧
    is_open_during { demoHoursPlace with opening_hours := none }
      (some "we") 1140 60 = none :=
  ⟨by rfl, by rfl, by rfl⟩

/-! ## C5 — output length bound of `rank_candidates` -/

unseal Rat.add Rat.mul Rat.inv Rat.sub Rat.ofScientific in
/-- **C5, counterexample.**  The claim says the output length is at most
`max_results` for *every* integer `max_results`; but `rank_candidates`
clamps `max_results` to at least 1 (`max_results = max(1, max_results)`),
so with `max_results = 0` and one venue the output has length 1 > 0. -/
theorem C5_zero_max_results_violated :
    ¬ ((rank_candidates demoHav demoSpecPizza [demoOpenDiner] (0, 0) 0).length ≤ 0) := by
  have h : (rank_candidates demoHav demoSpecPizza [demoOpenDiner] (0, 0) 0).length = 1 := by
    rfl
  omega

/-- **C5, amended.**  For every preference spec, place list, anchor and
integer `max_results`, the list returned by `rank_candidates` has length at
most `max(1, max_results)` (the source clamps `max_results` up to 1 before
slicing). -/
theorem C5_rank_length_le (hav : ℚ → ℚ → ℚ → ℚ → ℚ) (spec : PreferenceSpec)
    (places : List Place) (center : ℚ × ℚ) (mr : ℤ) :
    (rank_candidates hav spec places center mr).length ≤ (max 1 mr).toNat := by
  unfold rank_candidates
  exact List.length_take_le _ _

/-! ## C10 — `dedupe_places` is the first-occurrence subsequence -/

theorem dedupePlacesAux_sublist (l : List Place) :
    ∀ seen, (dedupePlacesAux seen l).Sublist l := by
  induction l with
  | nil => intro seen; simp [dedupePlacesAux]
  | cons p rest ih =>
    intro seen
    simp only [dedupePlacesAux]
    split
    · exact (ih seen).cons p
    · exact (ih (dedupKey p :: seen)).cons₂ p

theorem dedupePlacesAux_key_notin (l : List Place) :
    ∀ seen q, q ∈ dedupePlacesAux seen l → dedupKey q ∉ seen := by
  induction l with
  | nil => intro seen q hq; simp [dedupePlacesAux] at hq
  | cons p rest ih =>
    intro seen q hq
    simp only [dedupePlacesAux] at hq
    split at hq
    · exact ih seen q hq
    · rcases List.mem_cons.1 hq with rfl | hmem
      · assumption
      · have := ih _ q hmem
        exact fun hc => this (List.mem_cons_of_mem _ hc)

theorem dedupePlacesAux_keys_nodup (l : List Place) :
    ∀ seen, ((dedupePlacesAux seen l).map dedupKey).Nodup := by
  induction l with
  | nil => intro seen; simp [dedupePlacesAux]
  | cons p rest ih =>
    intro seen
    simp only [dedupePlacesAux]
    split
    · exact ih seen
    · simp only [List.map_cons, List.nodup_cons]
      refine ⟨fun hc => ?_, ih _⟩
      obtain ⟨q, hq, hkey⟩ := List.mem_map.1 hc
      exact dedupePlacesAux_key_notin rest _ q hq (hkey ▸ List.mem_cons_self _ _)

theorem dedupePlacesAux_find? (l : List Place) :
    ∀ seen q, q ∈ dedupePlacesAux seen l →
      l.find? (fun p => dedupKey p == dedupKey q) = some q := by
  induction l with
  | nil => intro seen q hq; simp [dedupePlacesAux] at hq
  | cons p rest ih =>
    intro seen q hq
    simp only [dedupePlacesAux] at hq
    split at hq
    · -- key of p already seen: q comes from the tail and its key is unseen
      have hne : dedupKey p ≠ dedupKey q := by
        intro hc
        exact dedupePlacesAux_key_notin rest seen q hq (hc ▸ ‹dedupKey p ∈ seen›)
      rw [List.find?_cons_of_neg _ (by simpa using hne)]
      exact ih seen q hq
    · rcases List.mem_cons.1 hq with rfl | hmem
      · rw [List.find?_cons_of_pos _ (by simp)]
      · have hnotin := dedupePlacesAux_key_notin rest _ q hmem
        have hne : dedupKey p ≠ dedupKey q := by
          intro hc
          exact hnotin (hc ▸ List.mem_cons_self _ _)
        rw [List.find?_cons_of_neg _ (by simpa using hne)]
        exact ih _ q hmem

theorem dedupePlacesAux_covers (l : List Place) :
    ∀ seen p, p ∈ l → dedupKey p ∈ seen ∨
      ∃ q ∈ dedupePlacesAux seen l, dedupKey q = dedupKey p := by
  induction l with
  | nil => intro seen p hp; simp at hp
  | cons hd rest ih =>
    intro seen p hp
    simp only [dedupePlacesAux]
    split
    · next hseen =>
      rcases List.mem_cons.1 hp with rfl | hmem
      · exact Or.inl hseen
      · exact ih seen p hmem
    · rcases List.mem_cons.1 hp with rfl | hmem
      · exact Or.inr ⟨p, List.mem_cons_self _ _, rfl⟩
      · rcases ih (dedupKey hd :: seen) p hmem with hseen | ⟨q, hq, hkey⟩
        · rcases List.mem_cons.1 hseen with heq | hseen'
          · exact Or.inr ⟨hd, List.mem_cons_self _ _, heq.symm⟩
          · exact Or.inl hseen'
        · exact Or.inr ⟨q, List.mem_cons_of_mem _ hq, hkey⟩

theorem dedupePlacesAux_fixed (l : List Place) :
    ∀ seen, ((l.map dedupKey).Nodup) → (∀ k ∈ l.map dedupKey, k ∉ seen) →
      dedupePlacesAux seen l = l := by
  induction l with
  | nil => intro seen _ _; simp [dedupePlacesAux]
  | cons p rest ih =>
    intro seen hnodup hfresh
    simp only [List.map_cons, List.nodup_cons] at hnodup
    simp only [dedupePlacesAux]
    rw [if_neg (hfresh _ (by simp))]
    congr 1
    refine ih _ hnodup.2 fun k hk => ?_
    intro hc
    rcases List.mem_cons.1 hc with rfl | hc'
    · exact hnodup.1 hk
    · exact hfresh k (List.mem_cons_of_mem _ hk) hc'

/-- **C10.**  `dedupe_places` returns the subsequence of its input keeping
the first occurrence of each dedup key (lower-cased stripped name plus
coordinates rounded to 5 decimals): the output is a sublist of the input,
its keys are pairwise distinct, every output element is the first input
element carrying its key, every input key is represented, and the function
is idempotent. -/
theorem C10_dedupe_places_spec (items : List Place) :
    (dedupe_places items).Sublist items ∧
    ((dedupe_places items).map dedupKey).Nodup ∧
    (∀ q ∈ dedupe_places items,
      items.find? (fun p => dedupKey p == dedupKey q) = some q) ∧
    (∀ p ∈ items, ∃ q ∈ dedupe_places items, dedupKey q = dedupKey p) ∧
    dedupe_places (dedupe_places items) = dedupe_places items := by
  refine ⟨dedupePlacesAux_sublist items [], dedupePlacesAux_keys_nodup items [],
    fun q hq => dedupePlacesAux_find? items [] q hq, fun p hp => ?_, ?_⟩
  · rcases dedupePlacesAux_covers items [] p hp with h | h
    · simp at h
    · exact h
  · exact dedupePlacesAux_fixed _ [] (dedupePlacesAux_keys_nodup items [])
      (fun k _ hc => by simp at hc)

unseal Rat.add Rat.mul Rat.inv Rat.sub Rat.ofScientific in
/-- **C10, witness.**  The first-occurrence behaviour at a concrete input:
two venues with the same stripped lower-cased name and 5-decimal-rounded
coordinates collapse to the first one. -/
theorem C10_dedupe_places_witness :
    dedupe_places [demoOpenDiner, { demoOpenDiner with name := " generic DINER " },
      demoClosedPizza] = [demoOpenDiner, demoClosedPizza] ∧
    [demoOpenDiner, demoClosedPizza].find?
      (fun p => dedupKey p == dedupKey demoClosedPizza) = some demoClosedPizza := by
  refine ⟨by rfl, ?_⟩
  refine (C10_dedupe_places_spec [demoOpenDiner, demoClosedPizza]).2.2.1
    demoClosedPizza ?_
  rw [show dedupe_places [demoOpenDiner, demoClosedPizza] =
    [demoOpenDiner, demoClosedPizza] from by rfl]
  exact List.mem_cons_of_mem _ (List.mem_cons_self _ _)

/-! ## Ordering lemmas for the stable sort -/

theorem insertLe_perm (le : α → α → Bool) (a : α) (l : List α) :
    (insertLe le a l).Perm (a :: l) := by
  induction l with
  | nil => simp [insertLe]
  | cons b bs ih =>
    simp only [insertLe]
    split
    · exact List.Perm.refl _
    · exact (ih.cons b).trans (List.Perm.swap a b bs)

theorem pySortBy_perm (le : α → α → Bool) (l : List α) :
    (pySortBy le l).Perm l := by
  induction l with
  | nil => simp [pySortBy]
  | cons a as ih => exact (insertLe_perm le a (pySortBy le as)).trans (ih.cons a)

theorem mem_pySortBy {le : α → α → Bool} {l : List α} {x : α} :
    x ∈ pySortBy le l ↔ x ∈ l :=
  (pySortBy_perm le l).mem_iff

theorem insertLe_pairwise {le : α → α → Bool}
    (htrans : ∀ a b c, le a b = true → le b c = true → le a c = true)
    (htot : ∀ a b, le a b = true ∨ le b a = true) (a : α) {l : List α}
    (hl : l.Pairwise (fun x y => le x y = true)) :
    (insertLe le a l).Pairwise (fun x y => le x y = true) := by
  induction l with
  | nil => simp [insertLe]
  | cons b bs ih =>
    rcases List.pairwise_cons.1 hl with ⟨hb, hbs⟩
    simp only [insertLe]
    split
    · next hab =>
      refine List.pairwise_cons.2 ⟨?_, hl⟩
      intro x hx
      rcases List.mem_cons.1 hx with rfl | hmem
      · exact hab
      · exact htrans _ _ _ hab (hb x hmem)
    · next hnab =>
      have hba : le b a = true := by
        rcases htot a b with h | h
        · exact absurd h (by simpa using hnab)
        · exact h
      refine List.pairwise_cons.2 ⟨?_, ih hbs⟩
      intro x hx
      rcases List.mem_cons.1 ((insertLe_perm le a bs).mem_iff.1 hx) with rfl | hmem
      · exact hba
      · exact hb x hmem

theorem pySortBy_pairwise {le : α → α → Bool}
    (htrans : ∀ a b c, le a b = true → le b c = true → le a c = true)
    (htot : ∀ a b, le a b = true ∨ le b a = true) (l : List α) :
    (pySortBy le l).Pairwise (fun x y => le x y = true) := by
  induction l with
  | nil => simp [pySortBy]
  | cons a as ih => exact insertLe_pairwise htrans htot a ih

theorem rankLe_trans (a b c : Candidate) (hab : rankLe a b = true)
    (hbc : rankLe b c = true) : rankLe a c = true := by
  simp only [rankLe, Bool.or_eq_true, Bool.and_eq_true, decide_eq_true_eq,
    beq_iff_eq] at *
  rcases hab with h1 | ⟨h1, h1'⟩ <;> rcases hbc with h2 | ⟨h2, h2'⟩
  · exact Or.inl (h1.trans h2)
  · exact Or.inl (h2 ▸ h1)
  · exact Or.inl (h1 ▸ h2)
  · exact Or.inr ⟨h1.trans h2, h2'.trans h1'⟩

theorem rankLe_total (a b : Candidate) :
    rankLe a b = true ∨ rankLe b a = true := by
  simp only [rankLe, Bool.or_eq_true, Bool.and_eq_true, decide_eq_true_eq,
    beq_iff_eq]
  rcases lt_trichotomy a.match_tier b.match_tier with h | h | h
  · exact Or.inl (Or.inl h)
  · rcases le_total b.score a.score with hs | hs
    · exact Or.inl (Or.inr ⟨h, hs⟩)
    · exact Or.inr (Or.inr ⟨h.symm, hs⟩)
  · exact Or.inr (Or.inl h)

theorem rankLe_tier_le {a b : Candidate} (h : rankLe a b = true) :
    a.match_tier ≤ b.match_tier := by
  simp only [rankLe, Bool.or_eq_true, Bool.and_eq_true, decide_eq_true_eq,
    beq_iff_eq] at h
  rcases h with h | ⟨h, _⟩
  · exact le_of_lt h
  · exact le_of_eq h

/-! ## C3 — tier 2 iff `missing_required_cuisine` -/

theorem mkCandidate_tier_iff (hav : ℚ → ℚ → ℚ → ℚ → ℚ) (spec : PreferenceSpec)
    (center : ℚ × ℚ) (p : Place) :
    ((mkCandidate hav spec center p).match_tier = 2 ↔
      "missing_required_cuisine" ∈ (mkCandidate hav spec center p).violated_constraints) := by
  simp only [mkCandidate]
  by_cases h : "missing_required_cuisine" ∈ candViolations spec p
  · simp [h]
  · simp [h]

/-- Every candidate in the output of `rank_candidates` is `mkCandidate` of
one of the input places. -/
theorem mem_rank_candidates {hav : ℚ → ℚ → ℚ → ℚ → ℚ} {spec : PreferenceSpec}
    {places : List Place} {center : ℚ × ℚ} {mr : ℤ} {c : Candidate}
    (hc : c ∈ rank_candidates hav spec places center mr) :
    ∃ p ∈ places, c = mkCandidate hav spec center p := by
  simp only [rank_candidates] at hc
  have hc1 := List.mem_of_mem_take hc
  have htake : ∀ (P : Prop) (inst : Decidable P) (l : List Candidate) (n : ℕ),
      c ∈ (@ite (List Candidate) P inst (l.take n) []) → c ∈ l := by
    intro P inst l n h
    split at h
    · exact List.mem_of_mem_take h
    · simp at h
  have hc2 : c ∈ (places.map (mkCandidate hav spec center)) := by
    rcases List.mem_append.1 hc1 with h | h
    · exact List.mem_of_mem_filter (mem_pySortBy.1 (htake _ _ _ _ h))
    · exact List.mem_of_mem_filter (mem_pySortBy.1 (htake _ _ _ _ h))
  obtain ⟨p, hp, hpc⟩ := List.mem_map.1 hc2
  exact ⟨p, hp, hpc.symm⟩

/-- **C3.**  For every candidate returned by `rank_candidates`, its
`match_tier` equals 2 exactly when `missing_required_cuisine` is in its
`violated_constraints` list. -/
theorem C3_tier_iff_missing_cuisine (hav : ℚ → ℚ → ℚ → ℚ → ℚ)
    (spec : PreferenceSpec) (places : List Place) (center : ℚ × ℚ) (mr : ℤ)
    (c : Candidate) (hc : c ∈ rank_candidates hav spec places center mr) :
    c.match_tier = 2 ↔ "missing_required_cuisine" ∈ c.violated_constraints := by
  obtain ⟨p, _, rfl⟩ := mem_rank_candidates hc
  exact mkCandidate_tier_iff hav spec center p

unseal Rat.add Rat.mul Rat.inv Rat.sub Rat.ofScientific in
/-- **C3, witness.**  The property at the first candidate of a concrete
ranked output (an open venue missing the required cuisine, hence tier 2). -/
theorem C3_tier_iff_witness :
    (mkCandidate demoHav demoSpecPizza (0, 0) demoOpenDiner).match_tier = 2 ↔
      "missing_required_cuisine" ∈
        (mkCandidate demoHav demoSpecPizza (0, 0) demoOpenDiner).violated_constraints := by
  have hout : rank_candidates demoHav demoSpecPizza
      [demoOpenDiner, demoClosedPizza] (0, 0) 24 =
      [mkCandidate demoHav demoSpecPizza (0, 0) demoOpenDiner,
       mkCandidate demoHav demoSpecPizza (0, 0) demoClosedPizza] := by rfl
  exact C3_tier_iff_missing_cuisine demoHav demoSpecPizza
    [demoOpenDiner, demoClosedPizza] (0, 0) 24 _
    (hout ▸ List.mem_cons_self _ _)

/-! ## C4 — ordering of the assembled output -/

theorem mkCandidate_fallback_not_open (hav : ℚ → ℚ → ℚ → ℚ → ℚ)
    (spec : PreferenceSpec) (center : ℚ × ℚ) (p : Place) :
    rankFallbackTest spec (mkCandidate hav spec center p) =
      !(mkCandidate hav spec center p).is_open_ok := by
  simp only [rankFallbackTest, mkCandidate, candOpenOk]
  rcases p.open_status with _ | b
  · cases spec.strict_open_check <;> simp
  · cases b <;> simp

theorem mem_qualified_open {hav : ℚ → ℚ → ℚ → ℚ → ℚ} {spec : PreferenceSpec}
    {center : ℚ × ℚ} {places : List Place} {c : Candidate}
    (hc : c ∈ (places.map (mkCandidate hav spec center)).filter
      (fun c => !rankFallbackTest spec c)) : c.is_open_ok = true := by
  rcases List.mem_filter.1 hc with ⟨hmem, hpred⟩
  obtain ⟨p, _, rfl⟩ := List.mem_map.1 hmem
  rw [mkCandidate_fallback_not_open] at hpred
  simpa using hpred

theorem mem_fallback_not_open {hav : ℚ → ℚ → ℚ → ℚ → ℚ} {spec : PreferenceSpec}
    {center : ℚ × ℚ} {places : List Place} {c : Candidate}
    (hc : c ∈ (places.map (mkCandidate hav spec center)).filter
      (fun c => rankFallbackTest spec c)) : c.is_open_ok = false := by
  rcases List.mem_filter.1 hc with ⟨hmem, hpred⟩
  obtain ⟨p, _, rfl⟩ := List.mem_map.1 hmem
  rw [mkCandidate_fallback_not_open] at hpred
  simpa using hpred

unseal Rat.add Rat.mul Rat.inv Rat.sub Rat.ofScientific in
/-- **C4, counterexample.**  The claim says no tier-2 candidate ever
precedes a tier-1 candidate.  But `rank_candidates` partitions by
*open-status*, not by tier: an open venue that misses the required cuisine
(tier 2) is placed in the `qualified` list, while a closed venue that
matches the cuisine (tier 1) is placed in the `fallback` list — and all
qualified candidates precede all fallback ones.  On this two-venue input the
output tiers are `[2, 1]`. -/
theorem C4_tier2_before_tier1_example :
    (rank_candidates demoHav demoSpecPizza [demoOpenDiner, demoClosedPizza]
      (0, 0) 24).map Candidate.match_tier = [2, 1] := by
  rfl

/-- **C4, amended.**  The output fills up to `max_results` from *qualified*
(open or unknown-when-not-strict) candidates first, sorted by
`(tier asc, score desc)`, then backfills from *fallback* (closed or
strict-unknown) candidates in the same order: in the returned list no
fallback candidate ever precedes a qualified one, and within candidates of
the same open-status partition no tier-2 candidate ever precedes a tier-1
candidate.  (Across partitions tiers may interleave, which is what the
original claim missed.) -/
theorem C4_two_tier_order (hav : ℚ → ℚ → ℚ → ℚ → ℚ) (spec : PreferenceSpec)
    (places : List Place) (center : ℚ × ℚ) (mr : ℤ) :
    (rank_candidates hav spec places center mr).Pairwise (fun c d =>
      (c.is_open_ok = false → d.is_open_ok = false) ∧
      (c.is_open_ok = d.is_open_ok → c.match_tier ≤ d.match_tier)) := by
  simp only [rank_candidates]
  apply List.Pairwise.sublist (List.take_sublist _ _)
  rw [List.pairwise_append]
  set cands := places.map (mkCandidate hav spec center) with hcands
  set qS := pySortBy rankLe (cands.filter fun c => !rankFallbackTest spec c)
    with hqS
  set fS := pySortBy rankLe (cands.filter fun c => rankFallbackTest spec c)
    with hfS
  have hqOk : ∀ c ∈ qS, c.is_open_ok = true := by
    intro c hcq
    exact mem_qualified_open (mem_pySortBy.1 hcq)
  have hfOk : ∀ c ∈ fS, c.is_open_ok = false := by
    intro c hcf
    exact mem_fallback_not_open (mem_pySortBy.1 hcf)
  have hqSorted : qS.Pairwise (fun a b => rankLe a b = true) :=
    pySortBy_pairwise rankLe_trans rankLe_total _
  have hfSorted : fS.Pairwise (fun a b => rankLe a b = true) :=
    pySortBy_pairwise rankLe_trans rankLe_total _
  have hIte : ∀ (P : Prop) (inst : Decidable P) (l : List Candidate) (n : ℕ)
      {c : Candidate}, c ∈ (@ite (List Candidate) P inst (l.take n) []) → c ∈ l := by
    intro P inst l n c h
    split at h
    · exact List.mem_of_mem_take h
    · simp at h
  have hPairIte : ∀ (P : Prop) (inst : Decidable P) (l : List Candidate) (n : ℕ)
      {R : Candidate → Candidate → Prop}, l.Pairwise R →
      (@ite (List Candidate) P inst (l.take n) []).Pairwise R := by
    intro P inst l n R hl
    split
    · exact List.Pairwise.sublist (List.take_sublist _ _) hl
    · exact List.Pairwise.nil
  refine ⟨?_, ?_, ?_⟩
  · refine hPairIte _ _ _ _ (List.Pairwise.imp_of_mem ?_ hqSorted)
    intro a b ha hb hle
    refine ⟨fun hf => absurd hf (by simp [hqOk a ha]), fun _ => rankLe_tier_le hle⟩
  · refine hPairIte _ _ _ _ (List.Pairwise.imp_of_mem ?_ hfSorted)
    intro a b ha hb hle
    refine ⟨fun _ => hfOk b hb, fun _ => rankLe_tier_le hle⟩
  · intro a ha b hb
    have hoa : a.is_open_ok = true := hqOk a (hIte _ _ _ _ ha)
    have hob : b.is_open_ok = false := hfOk b (hIte _ _ _ _ hb)
    exact ⟨fun hf => absurd hf (by simp [hoa]),
      fun hf => absurd hf (by simp [hoa, hob])⟩

/-! ## C6 — distance-score monotonicity -/

theorem roundTo_mono (d : ℕ) {x y : ℚ} (h : x ≤ y) : roundTo d x ≤ roundTo d y := by
  unfold roundTo
  have hp : (0 : ℚ) < (10 : ℚ) ^ d := by positivity
  have hr : round (x * (10 : ℚ) ^ d) ≤ round (y * (10 : ℚ) ^ d) := by
    rw [round_eq, round_eq]
    exact Int.floor_le_floor (by nlinarith)
  exact (div_le_div_iff_of_pos_right hp).2 (by exact_mod_cast hr)

/-- **C6.**  For two venues with identical name, address, tags, rating,
website and violation annotations whose distances from the anchor satisfy
`d1 < d2`, the score `rank_candidates` computes for the closer venue is at
least the score of the farther one. -/
theorem C6_distance_score_monotone (hav : ℚ → ℚ → ℚ → ℚ → ℚ)
    (spec : PreferenceSpec) (center : ℚ × ℚ) (p1 p2 : Place)
    (hname : p1.name = p2.name) (haddr : p1.address = p2.address)
    (htags : p1.tags = p2.tags) (hrating : p1.rating = p2.rating)
    (hweb : p1.website = p2.website) (hviol : p1.violations = p2.violations)
    (hdist : hav center.2 center.1 p1.lat p1.lon <
      hav center.2 center.1 p2.lat p2.lon) :
    (mkCandidate hav spec center p2).score ≤ (mkCandidate hav spec center p1).score := by
  have hna : candNameAddr p2 = candNameAddr p1 := by
    unfold candNameAddr
    rw [hname, haddr, htags]
  have hcm : candCuisineMatches p2 = candCuisineMatches p1 := by
    unfold candCuisineMatches
    rw [hna, htags]
  have ham : candAmbienceMatches p2 = candAmbienceMatches p1 := by
    unfold candAmbienceMatches
    rw [hna]
  simp only [mkCandidate]
  apply roundTo_mono
  rw [hcm, ham, ← hrating, ← hweb, ← hviol]
  have hD : (0 : ℚ) < (if rankRadiusKm spec ≠ 0 then rankRadiusKm spec else 1) := by
    have hrk : (0 : ℚ) < rankRadiusKm spec :=
      lt_of_lt_of_le (by norm_num) (le_max_right _ _)
    split
    · exact hrk
    · norm_num
  have hds : max 0 (1 - hav center.2 center.1 p2.lat p2.lon /
        (if rankRadiusKm spec ≠ 0 then rankRadiusKm spec else 1)) ≤
      max 0 (1 - hav center.2 center.1 p1.lat p1.lon /
        (if rankRadiusKm spec ≠ 0 then rankRadiusKm spec else 1)) := by
    apply max_le_max le_rfl
    have hdd := (div_le_div_iff_of_pos_right hD).2 (le_of_lt hdist)
    linarith
  have hgoal := mul_le_mul_of_nonneg_right hds (by norm_num : (0:ℚ) ≤ 25/100)
  linarith

unseal Rat.add Rat.mul Rat.inv Rat.sub Rat.ofScientific in
/-- **C6, witness.**  Two venues identical except for the distance from the
anchor (1 km vs. 2 km under the concrete distance function): the closer one
scores at least as high. -/
theorem C6_distance_score_witness :
    demoHav (0:ℚ) 0 demoOpenDiner.lat demoOpenDiner.lon <
      demoHav 0 0 ({ demoOpenDiner with lat := 2 } : Place).lat
        ({ demoOpenDiner with lat := 2 } : Place).lon ∧
    (mkCandidate demoHav demoSpecPizza (0, 0) { demoOpenDiner with lat := 2 }).score ≤
      (mkCandidate demoHav demoSpecPizza (0, 0) demoOpenDiner).score := by
  refine ⟨by norm_num [demoHav, demoOpenDiner], ?_⟩
  exact C6_distance_score_monotone demoHav demoSpecPizza (0, 0) demoOpenDiner
    { demoOpenDiner with lat := 2 } rfl rfl rfl rfl rfl rfl
    (by norm_num [demoHav, demoOpenDiner])

/-! ## C9 — `apply_rerank` only permutes and rescores -/

/-- A candidate with its (only mutable) `score` field blanked, for comparing
everything else. -/
def eraseScore (c : Candidate) : Candidate := { c with score := 0 }

theorem map_eraseScore_zipWith (w : ℚ) (sub : List Candidate) (ns : List ℚ) :
    ((sub.zipWith (fun c s => { c with score := (1 - w) * c.score + w * s }) ns).map
      eraseScore) = (sub.take ns.length).map eraseScore := by
  induction sub generalizing ns with
  | nil => simp
  | cons c cs ih =>
    cases ns with
    | nil => simp
    | cons n ns' => simp [eraseScore, ih]

/-- **C9.**  `apply_rerank` returns a permutation of its input in which only
`score` fields may differ (erasing the scores, output and input are
permutations of each other); and it is the identity when reranking is
disabled, when the input is empty, or when the scoring capability fails. -/
theorem C9_apply_rerank_frame (cap : String → List String → Except Unit (List ℚ))
    (cfg : Configuration) (spec : PreferenceSpec) (cands : List Candidate) :
    ((apply_rerank cap cfg spec cands).map eraseScore).Perm (cands.map eraseScore) ∧
    (cfg.rerank_enabled = false → apply_rerank cap cfg spec cands = cands) ∧
    (cands = [] → apply_rerank cap cfg spec cands = cands) ∧
    (∀ e, cap (build_query spec)
        ((cands.take (max 1 (min cfg.rerank_top_n (cands.length : ℤ))).toNat).map
          build_document) = .error e →
      apply_rerank cap cfg spec cands = cands) := by
  refine ⟨?_, ?_, ?_, ?_⟩
  · simp only [apply_rerank]
    split
    · exact List.Perm.refl _
    · split
      · exact List.Perm.refl _
      · refine (List.Perm.map eraseScore (pySortBy_perm _ _)).trans ?_
        rw [List.map_append, List.map_append, map_eraseScore_zipWith,
          ← List.map_append, List.take_append_drop, ← List.map_append,
          List.take_append_drop]
  · intro h
    simp only [apply_rerank]
    rw [if_pos (Or.inl (by simp [h]))]
  · intro h
    simp only [apply_rerank]
    rw [if_pos (Or.inr h)]
  · intro e hcap
    simp only [apply_rerank]
    split
    · rfl
    · rw [hcap]

unseal Rat.add Rat.mul Rat.inv Rat.sub Rat.ofScientific in
/-- **C9, witness.**  With reranking enabled but a capability that always
throws, `apply_rerank` returns its (nonempty) input unchanged. -/
theorem C9_apply_rerank_witness :
    apply_rerank (fun _ _ => .error ()) { rerank_enabled := true } demoSpecPizza
      [{ place := demoOpenDiner, score := 1/2, reason := "" }] =
      [{ place := demoOpenDiner, score := 1/2, reason := "" }] :=
  (C9_apply_rerank_frame (fun _ _ => .error ()) { rerank_enabled := true }
    demoSpecPizza [{ place := demoOpenDiner, score := 1/2, reason := "" }]).2.2.2
    () rfl

/-! ## C2 — exhaustion with nothing found returns normally -/

theorem processAttempt_empty {ctx : SearchCtx}
    (hc : ∀ lon lat r cat lim lg,
      ctx.client.places_circle lon lat r cat lim lg = .error () ∨
      ctx.client.places_circle lon lat r cat lim lg = .ok [])
    (hr : ∀ a b c d cat lim lg,
      ctx.client.places_rect a b c d cat lim lg = .error () ∨
      ctx.client.places_rect a b c d cat lim lg = .ok [])
    (radius : ℚ) (bbox : ℚ × ℚ × ℚ × ℚ) (st : SearchState)
    (att : Option String × Option String × Bool) :
    processAttempt ctx radius bbox st att = .inl st := by
  have h1 : orEmptyPlaces (ctx.client.places_circle ctx.center_lon ctx.center_lat
      (radius + ctx.cfg.bbox_padding_km) att.1 60 ctx.lang) = [] := by
    rcases hc ctx.center_lon ctx.center_lat (radius + ctx.cfg.bbox_padding_km)
      att.1 60 ctx.lang with h | h <;> rw [h] <;> rfl
  have h2 : orEmptyPlaces (ctx.client.places_rect bbox.1 bbox.2.1 bbox.2.2.1
      bbox.2.2.2 att.1 50 ctx.lang) = [] := by
    rcases hr bbox.1 bbox.2.1 bbox.2.2.1 bbox.2.2.2 att.1 50 ctx.lang
      with h | h <;> rw [h] <;> rfl
  have hp : attemptPlaces ctx radius bbox att = [] := by
    simp only [attemptPlaces, h1, h2, if_pos]
  simp only [processAttempt, hp, if_pos]

theorem processAttempts_empty {ctx : SearchCtx}
    (hc : ∀ lon lat r cat lim lg,
      ctx.client.places_circle lon lat r cat lim lg = .error () ∨
      ctx.client.places_circle lon lat r cat lim lg = .ok [])
    (hr : ∀ a b c d cat lim lg,
      ctx.client.places_rect a b c d cat lim lg = .error () ∨
      ctx.client.places_rect a b c d cat lim lg = .ok [])
    (radius : ℚ) (bbox : ℚ × ℚ × ℚ × ℚ) (st : SearchState)
    (atts : List (Option String × Option String × Bool)) :
    processAttempts ctx radius bbox st atts = .inl st := by
  induction atts with
  | nil => rfl
  | cons att rest ih =>
    simp only [processAttempts, processAttempt_empty hc hr, ih]

theorem searchLoop_empty (ctx : SearchCtx)
    (hc : ∀ lon lat r cat lim lg,
      ctx.client.places_circle lon lat r cat lim lg = .error () ∨
      ctx.client.places_circle lon lat r cat lim lg = .ok [])
    (hr : ∀ a b c d cat lim lg,
      ctx.client.places_rect a b c d cat lim lg = .error () ∨
      ctx.client.places_rect a b c d cat lim lg = .ok [])
    (atts : List (Option String × Option String × Bool)) (fuel : ℕ) :
    ∀ radius bbox, ∃ b,
      searchLoop ctx atts fuel radius bbox ⟨[], [], none⟩ = ⟨[], b, ctx.spec⟩ := by
  induction fuel with
  | zero => intro radius bbox; exact ⟨bbox, rfl⟩
  | succ fuel ih =>
    intro radius bbox
    simp only [searchLoop]
    split
    · simp only [processAttempts_empty hc hr]
      split
      · exact ⟨_, rfl⟩
      · exact ih _ _
    · exact ⟨bbox, rfl⟩

/-- **C2, amended.**  When the whole radius/category expansion space is
exhausted with zero venues ever collected and no relaxed capture available
(here: the provider yields no venue for any circle or rectangle query),
`search_candidates` does **not** raise — no `NoCandidatesFoundError` exists
anywhere in the code — it returns normally with an empty venue list, the
final bbox, and the spec (anchor recorded, `distance_km` untouched). -/
theorem C2_exhaustion_returns_empty (client : GeoapifyClient) (cosd : ℚ → ℚ)
    (cfg : Configuration) (spec : PreferenceSpec) (min_results : ℤ)
    (anchor : ℚ × ℚ × String × String)
    (hc : ∀ lon lat r cat lim lg,
      client.places_circle lon lat r cat lim lg = .error () ∨
      client.places_circle lon lat r cat lim lg = .ok [])
    (hr : ∀ a b c d cat lim lg,
      client.places_rect a b c d cat lim lg = .error () ∨
      client.places_rect a b c d cat lim lg = .ok []) :
    ∃ b, search_candidates client cosd cfg spec min_results (some anchor) =
      .ok ⟨[], b,
        { spec with
            anchor_type := some anchor.2.2.1
            anchor_label := some anchor.2.2.2 }⟩ := by
  simp only [search_candidates, searchFromAnchor]
  obtain ⟨b, hb⟩ := searchLoop_empty
    (searchCtxOf client cosd cfg spec min_results anchor) hc hr
    (categoryAttempts spec) 32 (safe_radius_km spec cfg)
    (expand_bbox_from_center cosd anchor.1 anchor.2.1
      (safe_radius_km spec cfg + cfg.bbox_padding_km))
  refine ⟨b, ?_⟩
  rw [hb]
  rfl

unseal Rat.add Rat.mul Rat.inv Rat.sub Rat.ofScientific in
/-- **C2, counterexample.**  The claim says exhaustion with nothing found
raises a `NoCandidatesFoundError`.  Concretely: with a provider that never
returns a venue, `search_candidates` returns normally (`Except.ok`) with the
empty list and the final bbox — it does not raise. -/
theorem C2_no_error_on_total_exhaustion :
    search_candidates emptyGeoClient (fun _ => 1) {} { city := "Seattle" } 5
      (some (0, 0, "coord", "anchor")) =
    .ok ⟨[], ((-515 : ℚ)/2783, (-10300 : ℚ)/55287, (515 : ℚ)/2783, (10300 : ℚ)/55287),
         { city := "Seattle", anchor_type := some "coord",
           anchor_label := some "anchor" }⟩ := by
  rfl

unseal Rat.add Rat.mul Rat.inv Rat.sub Rat.ofScientific in
/-- **C2, witness.**  The amended exhaustion theorem at a concrete
always-empty provider. -/
theorem C2_exhaustion_witness :
    ∃ b, search_candidates emptyGeoClient (fun _ => 1) {} { city := "Seattle" } 5
      (some (0, 0, "coord", "anchor")) =
      .ok ⟨[], b, { city := "Seattle", anchor_type := some "coord",
                    anchor_label := some "anchor" }⟩ :=
  C2_exhaustion_returns_empty emptyGeoClient (fun _ => 1) {} { city := "Seattle" }
    5 (0, 0, "coord", "anchor") (fun _ _ _ _ _ _ => Or.inr rfl)
    (fun _ _ _ _ _ _ _ => Or.inr rfl)

/-! ## C7 — early stop at `min_results` -/

theorem collectNew_snd_append (l : List Place) :
    ∀ seen col, ∃ ps, (collectNew seen col l).2 = col ++ ps := by
  induction l with
  | nil => intro seen col; exact ⟨[], by simp [collectNew]⟩
  | cons p rest ih =>
    intro seen col
    simp only [collectNew]
    split
    · exact ih seen col
    · obtain ⟨ps, hps⟩ := ih (dedupKey p :: seen) (col ++ [p])
      exact ⟨p :: ps, by simp [hps]⟩

/-- **C7.**  Suppose the collected list has not yet reached the (clamped)
`min_results` threshold.  If a category attempt triggers the early return,
then (a) the whole attempt loop stops immediately with that very result, no
matter what attempts would have followed; (b) the result carries the current
bbox; (c) the returned spec is the input spec with the radius actually used
written into `distance_km`; and (d) the returned venues are exactly the
first `min_results` of the collected list (the previous collection extended,
in order, by this attempt's newly seen venues), which has just reached the
threshold.  Conversely (e): an attempt that does not return leaves the
collected list strictly below the threshold. -/
theorem C7_stop_at_min_results (ctx : SearchCtx) (radius : ℚ)
    (bbox : ℚ × ℚ × ℚ × ℚ) (st : SearchState)
    (att : Option String × Option String × Bool)
    (h1 : st.collected.length < ctx.minr) :
    (∀ res, processAttempt ctx radius bbox st att = .inr res →
      (∀ rest, processAttempts ctx radius bbox st (att :: rest) = .inr res) ∧
      res.bbox = bbox ∧
      res.spec = { ctx.spec with distance_km := radius } ∧
      ∃ newps, res.places = (st.collected ++ newps).take ctx.minr ∧
        ctx.minr ≤ (st.collected ++ newps).length) ∧
    (∀ st', processAttempt ctx radius bbox st att = .inl st' →
      st'.collected.length < ctx.minr) := by
  constructor
  · intro res hres
    have hfold : ∀ rest, processAttempts ctx radius bbox st (att :: rest) = .inr res := by
      intro rest
      simp only [processAttempts, hres]
    refine ⟨hfold, ?_⟩
    simp only [processAttempt] at hres
    split at hres
    · exact absurd hres (by simp)
    · split at hres
      · exact absurd hres (by simp)
      · split at hres
        · exact absurd hres (by simp)
        · split at hres
          · next hlen =>
            obtain ⟨ps, hps⟩ := collectNew_snd_append
              (attemptTagged ctx radius att (attemptWorking ctx att
                (attemptPlaces ctx radius bbox att))) st.seen st.collected
            injection hres with hres
            subst hres
            refine ⟨rfl, rfl, ps, ?_, ?_⟩
            · simp [hps]
            · rw [← hps]; exact hlen
          · exact absurd hres (by simp)
  · intro st' hst'
    simp only [processAttempt] at hst'
    split at hst'
    · injection hst' with hst'; subst hst'; exact h1
    · split at hst'
      · injection hst' with hst'; subst hst'; exact h1
      · split at hst'
        · injection hst' with hst'; subst hst'; exact h1
        · split at hst'
          · exact absurd hst' (by simp)
          · next hlen =>
            injection hst' with hst'
            subst hst'
            simpa using hlen

/-- A provider whose circle queries always return one fixed venue. -/
def demoSearchClient : GeoapifyClient :=
  { emptyGeoClient with
      places_circle := fun _ _ _ _ _ _ => .ok [{ name := "P1", lon := 1, lat := 2 }] }

def demoCtx : SearchCtx :=
  searchCtxOf demoSearchClient (fun _ => 1) {} { city := "Seattle" } 1
    (0, 0, "coord", "a")

def demoAtt : Option String × Option String × Bool :=
  (some "catering.restaurant", none, true)

def demoBBox : ℚ × ℚ × ℚ × ℚ := (-1, -1, 1, 1)

unseal Rat.add Rat.mul Rat.inv Rat.sub Rat.ofScientific in
/-- **C7, witness.**  A concrete attempt that reaches the threshold
(one venue found, `min_results = 1`) stops the whole attempt loop with
exactly that venue, the current bbox, and the radius recorded into
`distance_km` — the further pending attempt is never consulted. -/
theorem C7_stop_witness :
    (⟨[], [], none⟩ : SearchState).collected.length < demoCtx.minr ∧
    processAttempts demoCtx 3 demoBBox ⟨[], [], none⟩ (demoAtt :: [demoAtt]) =
      .inr ⟨[{ name := "P1", lon := 1, lat := 2 }], demoBBox,
            { city := "Seattle", distance_km := 3, anchor_type := some "coord",
              anchor_label := some "a" }⟩ := by
  have h1 : (⟨[], [], none⟩ : SearchState).collected.length < demoCtx.minr := by
    decide
  exact ⟨h1,
    ((C7_stop_at_min_results demoCtx 3 demoBBox ⟨[], [], none⟩ demoAtt h1).1
      _ rfl).1 [demoAtt]⟩

/-! ## C8 — anchor resolution priority and error swallowing -/

/-- "Some strategy yields an anchor": the five-strategy disjunction of
`resolve_anchor` — explicit coordinates, a POI geocode hit, a ZIP geocode
hit, a registry hit, or a free-text geocode hit (with its city-only
fallback). -/
def anchorStrategyYields (client : GeoapifyClient) (cfg : Configuration)
    (spec : PreferenceSpec) : Prop :=
  (∃ la lo, spec.anchor_lat = some la ∧ spec.anchor_lon = some lo) ∨
  (∃ poi r, spec.anchor_poi = some poi ∧ poi ≠ "" ∧
    client.geocode (resolvePoiQuery spec poi) (specLang cfg spec) = .ok (some r)) ∨
  (∃ z r, spec.anchor_zip = some z ∧ z ≠ "" ∧
    client.geocode z (specLang cfg spec) = .ok (some r)) ∨
  (spec.city ≠ "" ∧ ∃ pt, lookup_us_location spec.city spec.area = some pt) ∨
  (resolveGeocodeText spec ≠ "" ∧
    ((∃ r, client.geocode (resolveGeocodeText spec) (specLang cfg spec) = .ok (some r)) ∨
     (spec.city ≠ "" ∧
      ∃ r, client.geocode spec.city (specLang cfg spec) = .ok (some r))))

/-- The strategies 2–5 part of `anchorStrategyYields`. -/
def restStrategyYields (client : GeoapifyClient) (cfg : Configuration)
    (spec : PreferenceSpec) : Prop :=
  (∃ poi r, spec.anchor_poi = some poi ∧ poi ≠ "" ∧
    client.geocode (resolvePoiQuery spec poi) (specLang cfg spec) = .ok (some r)) ∨
  (∃ z r, spec.anchor_zip = some z ∧ z ≠ "" ∧
    client.geocode z (specLang cfg spec) = .ok (some r)) ∨
  (spec.city ≠ "" ∧ ∃ pt, lookup_us_location spec.city spec.area = some pt) ∨
  (resolveGeocodeText spec ≠ "" ∧
    ((∃ r, client.geocode (resolveGeocodeText spec) (specLang cfg spec) = .ok (some r)) ∨
     (spec.city ≠ "" ∧
      ∃ r, client.geocode spec.city (specLang cfg spec) = .ok (some r))))

theorem restYields_of_yields {client : GeoapifyClient} {cfg : Configuration}
    {spec : PreferenceSpec} (hy : anchorStrategyYields client cfg spec)
    (hla : spec.anchor_lat = none) : restStrategyYields client cfg spec := by
  rcases hy with ⟨la, lo, h1, _⟩ | hy'
  · rw [hla] at h1; exact Option.noConfusion h1
  · exact hy'

theorem restYields_of_yields2 {client : GeoapifyClient} {cfg : Configuration}
    {spec : PreferenceSpec} (hy : anchorStrategyYields client cfg spec)
    (hlo : spec.anchor_lon = none) : restStrategyYields client cfg spec := by
  rcases hy with ⟨la, lo, _, h2⟩ | hy'
  · rw [hlo] at h2; exact Option.noConfusion h2
  · exact hy'

theorem resolveAnchorRest_ok (client : GeoapifyClient) (cfg : Configuration)
    (spec : PreferenceSpec) (hy : restStrategyYields client cfg spec) :
    ∃ v, resolveAnchorRest client cfg spec = .ok v := by
  rcases hpoi : poiStrategy client cfg spec with _ | r
  · rcases hzip : zipStrategy client cfg spec with _ | r
    · rcases hreg : registryStrategy spec with _ | pt
      · rcases htxt : textStrategy client cfg spec with _ | g
        · exfalso
          rcases hy with ⟨poi, r, hp1, hp2, hp3⟩ | ⟨z, r, hz1, hz2, hz3⟩ |
            ⟨hc, pt, hl⟩ | ⟨ht, hgd⟩
          · have hcon : poiStrategy client cfg spec = some (r.lon, r.lat, "poi", poi) := by
              simp [poiStrategy, hp1, hp2, hp3]
            rw [hpoi] at hcon
            exact Option.noConfusion hcon
          · have hcon : zipStrategy client cfg spec = some (r.lon, r.lat, "zip", z) := by
              simp [zipStrategy, hz1, hz2, hz3]
            rw [hzip] at hcon
            exact Option.noConfusion hcon
          · have hcon : registryStrategy spec = some pt := by
              simp [registryStrategy, hc, hl]
            rw [hreg] at hcon
            exact Option.noConfusion hcon
          · rcases hgt : client.geocode (resolveGeocodeText spec) (specLang cfg spec)
              with e | og
            · rcases hgd with ⟨r, hg⟩ | ⟨hc, r, hg⟩
              · rw [hgt] at hg; exact Except.noConfusion hg
              · have hcon : textStrategy client cfg spec = some r := by
                  simp [textStrategy, ht, hc, hgt, hg]
                rw [htxt] at hcon
                exact Option.noConfusion hcon
            · rcases og with _ | g2
              · rcases hgd with ⟨r, hg⟩ | ⟨hc, r, hg⟩
                · rw [hgt] at hg
                  simp at hg
                · have hcon : textStrategy client cfg spec = some r := by
                    simp [textStrategy, ht, hc, hgt, hg]
                  rw [htxt] at hcon
                  exact Option.noConfusion hcon
              · have hcon : textStrategy client cfg spec = some g2 := by
                  simp [textStrategy, ht, hgt]
                rw [htxt] at hcon
                exact Option.noConfusion hcon
        · exact ⟨(g.lon, g.lat, "city",
            if resolveGeocodeText spec ≠ "" then resolveGeocodeText spec
            else spec.city),
            by simp only [resolveAnchorRest, hpoi, hzip, hreg, htxt]⟩
      · exact ⟨(pt.1, pt.2, if areaTruthy spec then "area" else "city",
          areaOrCity spec), by simp only [resolveAnchorRest, hpoi, hzip, hreg]⟩
    · exact ⟨r, by simp only [resolveAnchorRest, hpoi, hzip]⟩
  · exact ⟨r, by simp only [resolveAnchorRest, hpoi]⟩

/-- **C8.**  (1) Explicit caller-supplied coordinates always win: whenever
`anchor_lat` and `anchor_lon` are both present, `resolve_anchor` returns
exactly those coordinates with anchor type `"coord"`, regardless of what any
geocoder call would do.  (2) Geocoder errors are swallowed: `resolve_anchor`
fails only when every strategy yields nothing — whenever some strategy
yields, the result is a success. -/
theorem C8_anchor_priority_and_totality :
    (∀ (client : GeoapifyClient) (cfg : Configuration) (spec : PreferenceSpec)
      (la lo : ℚ), spec.anchor_lat = some la → spec.anchor_lon = some lo →
      resolve_anchor client cfg spec =
        .ok (lo, la, "coord", fmtFixed 4 la ++ "," ++ fmtFixed 4 lo)) ∧
    (∀ (client : GeoapifyClient) (cfg : Configuration) (spec : PreferenceSpec),
      anchorStrategyYields client cfg spec →
      ∃ v, resolve_anchor client cfg spec = .ok v) := by
  constructor
  · intro client cfg spec la lo hla hlo
    simp only [resolve_anchor, hla, hlo]
  · intro client cfg spec hy
    rcases hla : spec.anchor_lat with _ | la <;>
      rcases hlo : spec.anchor_lon with _ | lo
    · rw [show resolve_anchor client cfg spec = resolveAnchorRest client cfg spec
        from by simp only [resolve_anchor, hla, hlo]]
      exact resolveAnchorRest_ok client cfg spec (restYields_of_yields hy hla)
    · rw [show resolve_anchor client cfg spec = resolveAnchorRest client cfg spec
        from by simp only [resolve_anchor, hla, hlo]]
      exact resolveAnchorRest_ok client cfg spec (restYields_of_yields hy hla)
    · rw [show resolve_anchor client cfg spec = resolveAnchorRest client cfg spec
        from by simp only [resolve_anchor, hla, hlo]]
      exact resolveAnchorRest_ok client cfg spec
        (restYields_of_yields2 hy hlo)
    · exact ⟨(lo, la, "coord", fmtFixed 4 la ++ "," ++ fmtFixed 4 lo),
        by simp only [resolve_anchor, hla, hlo]⟩

/-- A provider whose every call raises `GeoapifyError`. -/
def failingGeoClient : GeoapifyClient :=
  ⟨fun _ _ => .error (), fun _ _ _ _ _ _ => .error (),
   fun _ _ _ _ _ _ _ => .error ()⟩

unseal Rat.add Rat.mul Rat.inv Rat.sub Rat.ofScientific in
/-- **C8, witness.**  Explicit coordinates win at a concrete spec, and with
a geocoder that always raises, a registry-resolvable city still resolves
(the provider errors are swallowed). -/
theorem C8_anchor_witness :
    resolve_anchor emptyGeoClient {}
      { city := "", anchor_lat := some (1/2), anchor_lon := some (1/4) } =
      .ok (1/4, 1/2, "coord", "0.5000,0.2500") ∧
    ∃ v, resolve_anchor failingGeoClient {} { city := "Seattle" } = .ok v := by
  constructor
  · exact C8_anchor_priority_and_totality.1 emptyGeoClient {}
      { city := "", anchor_lat := some (1/2), anchor_lon := some (1/4) }
      (1/2) (1/4) rfl rfl
  · exact C8_anchor_priority_and_totality.2 failingGeoClient {}
      { city := "Seattle" }
      (Or.inr (Or.inr (Or.inr (Or.inl ⟨by decide,
        (-122.3321, 47.6062), by rfl⟩))))
